import Mathlib

/-!
Shallow embedding of the Cartes flashcard viewer session core
(deck builder, navigation engine, revision state machine, asset
resolver), translated from the JavaScript sources
`src/features/navigation.js`, `src/features/revision-mode.js`,
`src/features/chapters.js`, `src/core/image-loader.js`,
`src/core/storage.js`, `src/utils/helpers.js`, `src/state.js` and
`src/config.js`.

Modelling conventions:
- card numbers are `Nat`; JavaScript `Set` objects are modelled as
  insertion-ordered duplicate-free lists (`jsAdd` / `jsDel` /
  `newSet` mirror `Set.prototype.add` / `delete` / `new Set(...)`,
  and `Array.from(set)` is the list itself);
- `Math.random()`-driven choices are explicit parameters: an index
  draw `Math.floor(Math.random() * len)` becomes a parameter
  `ri : Nat` used as `ri % len`, and the Fisher-Yates draws of
  `shuffleInPlace` become a list of naturals consumed one per swap;
- storage reads (`loadFavourites`, `loadHistory`,
  `loadRevisionProgress`) are parameters holding the stored value;
  storage writes and all DOM / presentation calls have no session
  state effect and are dropped;
- manifest `per_card` keys (stringified card numbers per the
  manifest contract) are modelled as the parsed naturals;
  `encodeURIComponent` is the identity on the URL-safe tokens the
  resolver passes it;
- image loading is an oracle `String → Bool` giving the outcome of
  `loadImage` per URL, and `loadCardImage` additionally returns the
  ordered trace of URLs it attempted.
-/

namespace Cartes

/-- Navigation history capacity, `MAX_HISTORY` in `config.js`. -/
def MAX_HISTORY : Nat := 5

/-- Fast-navigation burst count threshold, `FAST_NAV_THRESHOLD` in `config.js`. -/
def FAST_NAV_THRESHOLD : Nat := 2

/-- Fast-navigation window in milliseconds, `FAST_NAV_WINDOW_MS` in `config.js`. -/
def FAST_NAV_WINDOW_MS : Nat := 450

/-- Global image format fallback order, `IMAGE_FORMATS` in `config.js`. -/
def IMAGE_FORMATS : List String := ["webp", "png"]

/-- JavaScript `Set.prototype.add`: append unless already present. -/
def jsAdd {α : Type} [DecidableEq α] (s : List α) (x : α) : List α :=
  if x ∈ s then s else s ++ [x]

/-- JavaScript `Set.prototype.delete`: remove every occurrence (at most one arises). -/
def jsDel {α : Type} [DecidableEq α] (s : List α) (x : α) : List α :=
  s.filter (fun y => y ≠ x)

/-- JavaScript `new Set(iterable)`: keep the first occurrence of each element. -/
def newSet {α : Type} [DecidableEq α] (l : List α) : List α :=
  l.foldl jsAdd []

/-- The helper `asPositiveInt` of `utils/helpers.js`, on already-parsed numeric keys. -/
def asPositiveInt (n : Nat) : Option Nat :=
  if 0 < n then some n else none

/-- JavaScript `arr.slice(-n)`: the last `n` elements. -/
def takeLastN {α : Type} (n : Nat) (l : List α) : List α :=
  l.drop (l.length - n)

/-- JavaScript `Array.prototype.indexOf`: index of the first occurrence, `-1` if absent. -/
def jsIndexOf (l : List Nat) (x : Nat) : Int :=
  if x ∈ l then (l.indexOf x : Int) else -1

/-- One Fisher-Yates swap: exchange positions `i` and `j` (`helpers.js shuffleInPlace` body). -/
def swapL (l : List Nat) (i j : Nat) : List Nat :=
  match l.get? i, l.get? j with
  | some a, some b => (l.set i b).set j a
  | _, _ => l

/-- The Fisher-Yates loop of `shuffleInPlace` in `utils/helpers.js`: for `i` from
`len-1` down to `1`, swap position `i` with a drawn position `j ≤ i`; the random
draws are supplied as the list `rand`, one entry per iteration, reduced mod `i+1`. -/
def fisherYates : List Nat → List Nat → Nat → List Nat
  | _, arr, 0 => arr
  | rand, arr, i + 1 => fisherYates rand.tail (swapL arr (i + 1) (rand.headD 0 % (i + 2))) i

/-- The helper `shuffleArray` of `utils/helpers.js`: Fisher-Yates on a copy. -/
def shuffleArray (rand : List Nat) (items : List Nat) : List Nat :=
  fisherYates rand items (items.length - 1)

/-- Per-card manifest metadata consumed by the deck builder (`per_card` values). -/
structure CardMeta where
  border : Option String := none
  timer : Option String := none
deriving DecidableEq

/-- The manifest format-hint object (`image_formats` / `formats` in the manifest);
the field `dflt` stands for the manifest key `default`. -/
structure FormatsObj where
  front : Option String := none
  back : Option String := none
  dflt : Option String := none
deriving DecidableEq

/-- The chapter manifest fields consumed by the deck builder and the asset
resolver; `per_card` keys are the parsed card numbers. -/
structure Manifest where
  per_card : Option (List (Nat × CardMeta)) := none
  cards_by_border : Option (List (String × List Nat)) := none
  cards_by_timer : Option (List (String × List Nat)) := none
  image_formats : Option FormatsObj := none
  image_format : Option String := none
deriving DecidableEq

/-- Purple-card exclusion source in `rebuildDeck`: per-card borders when
`per_card` is present, else the `cards_by_border.purple` aggregate list. -/
def purpleSet (m : Manifest) : List Nat :=
  match m.per_card with
  | some pc => newSet ((pc.filter (fun kv => kv.snd.border = some "purple")).map Prod.fst)
  | none =>
    match m.cards_by_border with
    | some tbl =>
      match tbl.lookup "purple" with
      | some arr => newSet arr
      | none => []
    | none => []

/-- Timer-filter allowed set from `per_card` entries whose `timer` matches. -/
def timerAllowedPerCard (m : Manifest) (tf : String) : List Nat :=
  match m.per_card with
  | some pc => newSet ((pc.filter (fun kv => kv.snd.timer = some tf)).map Prod.fst)
  | none => []

/-- Timer-filter allowed set in `rebuildDeck`: the `cards_by_timer[tf]` aggregate
list when present, else derived from `per_card`. -/
def timerAllowed (m : Manifest) (tf : String) : List Nat :=
  match m.cards_by_timer with
  | some tbl =>
    match tbl.lookup tf with
    | some arr => newSet arr
    | none => timerAllowedPerCard m tf
  | none => timerAllowedPerCard m tf

/-- Difficulty-filter allowed set from `per_card` entries whose `border` matches. -/
def borderAllowedPerCard (m : Manifest) (df : String) : List Nat :=
  match m.per_card with
  | some pc => newSet ((pc.filter (fun kv => kv.snd.border = some df)).map Prod.fst)
  | none => []

/-- Difficulty-filter allowed set in `rebuildDeck`: the `cards_by_border[df]`
aggregate list when present, else derived from `per_card`. -/
def borderAllowed (m : Manifest) (df : String) : List Nat :=
  match m.cards_by_border with
  | some tbl =>
    match tbl.lookup df with
    | some arr => newSet arr
    | none => borderAllowedPerCard m df
  | none => borderAllowedPerCard m df

/-- The explicit-key candidate deck of `rebuildDeck`: the sorted deduplicated
positive `per_card` keys, when present and non-empty. -/
def perCardNumbers (m? : Option Manifest) : Option (List Nat) :=
  match m? with
  | some m =>
    match m.per_card with
    | some pc =>
      let numbers :=
        List.insertionSort (· ≤ ·) (newSet ((pc.map Prod.fst).filterMap asPositiveInt))
      if numbers.length ≠ 0 then some numbers else none
    | none => none
  | none => none

/-- Candidate deck of `rebuildDeck` before filtering: the explicit `per_card`
keys (padded with the numbers of `[1, total]` they miss, appended in ascending
order) when present, else the dense range `[1, total]`. -/
def baseDeck (m? : Option Manifest) (total : Nat) : List Nat :=
  match perCardNumbers m? with
  | none => List.range' 1 total
  | some nums =>
    if total ≠ 0 ∧ nums.length < total then
      nums ++ (List.range' 1 total).filter (fun i => ¬ i ∈ nums)
    else nums

/-- The manifest-driven filter block of `rebuildDeck`: purple exclusion, timer
filter and difficulty filter, applied only when a manifest is present. -/
def applyManifestFilters (m? : Option Manifest) (tf df : String) (d0 : List Nat) :
    List Nat :=
  match m? with
  | none => d0
  | some m =>
    let purple := purpleSet m
    let dA := if purple.length ≠ 0 then d0.filter (fun n => ¬ n ∈ purple) else d0
    let dB :=
      if tf ≠ "" ∧ tf ≠ "all" then
        let allowed := timerAllowed m tf
        if allowed.length ≠ 0 then dA.filter (fun n => n ∈ allowed) else []
      else dA
    if df ≠ "" ∧ df ≠ "all" then
      let allowed := borderAllowed m df
      if allowed.length ≠ 0 then dB.filter (fun n => n ∈ allowed) else []
    else dB

/-- The deck computation of `rebuildDeck` in `navigation.js`: candidate deck,
purple exclusion, timer filter, difficulty filter, favourites filter, final
ascending sort. `fav` is the stored favourites set (`loadFavourites()`). -/
def computeDeck (m? : Option Manifest) (total : Nat) (tf df : String)
    (favOnly : Bool) (fav : List Nat) : List Nat :=
  let d0 := baseDeck m? total
  let d1 := applyManifestFilters m? tf df d0
  let d2 := if favOnly then d1.filter (fun n => n ∈ fav) else d1
  List.insertionSort (· ≤ ·) d2

/-- A queued navigation request (`state.navQueue` entries). -/
inductive NavAct where
  | next
  | prev
deriving DecidableEq

/-- Outcome of revision round-completion handling: terminal completion modal
(`showRevisionComplete`) or a new round (`startNewRevisionRound`). -/
inductive RoundResult where
  | complete
  | newRound
deriving DecidableEq

/-- The session state object of `state.js`, restricted to the fields the session
core reads or writes. Presentation-only fields (`flipped`, `sizes`,
`imagesLoaded`, `preloading`, chapter identity and paths) are omitted. -/
structure AppState where
  total : Nat := 0
  deck : List Nat := []
  history : List Nat := []
  historyIndex : Int := -1
  currentIndex : Nat := 0
  unvisited : List Nat := []
  shuffle : Bool := false
  showFavouritesOnly : Bool := false
  isTransitioning : Bool := false
  manifest : Option Manifest := none
  filterTimer : String := "all"
  filterDifficulty : String := "all"
  shuffleQueue : List Nat := []
  navBurstCount : Nat := 0
  navLastTime : Nat := 0
  navFastMode : Bool := false
  navQueue : List NavAct := []
  lastCardBeforeFavourites : Option Nat := none
  wasShuffleBeforeFavourites : Bool := false
  revisionMode : Bool := false
  revisionRound : Nat := 1
  revisionIncorrect : List Nat := []
  revisionSeen : List Nat := []
  revisionMastered : List Nat := []
deriving DecidableEq

/-- `getCurrentCard` of `state.js`: the displayed card, from the history pointer
in shuffle mode and from the deck index in sequential mode. The JavaScript
`currentIndex < 0` guard is vacuous here since `currentIndex : Nat`. -/
def getCurrentCard (s : AppState) : Option Nat :=
  if s.shuffle then
    if s.history.length = 0 then none
    else if s.historyIndex < 0 ∨ (s.history.length : Int) ≤ s.historyIndex then none
    else s.history.get? s.historyIndex.toNat
  else
    if s.deck.length = 0 then none
    else if s.deck.length ≤ s.currentIndex then none
    else s.deck.get? s.currentIndex

/-- `getCurrentRevisionDeck` of `state.js`: a copy of the deck. -/
def getCurrentRevisionDeck (s : AppState) : List Nat :=
  s.deck

/-- `resetFastNavState` of `navigation.js`. -/
def resetFastNavState (s : AppState) : AppState :=
  { s with navBurstCount := 0, navLastTime := 0, navFastMode := false, navQueue := [] }

/-- `recordFastNavBurst` of `navigation.js`; `now` is the `nowMs()` reading. -/
def recordFastNavBurst (now : Nat) (s : AppState) : AppState :=
  if s.revisionMode then resetFastNavState s
  else
    let cnt := if now - s.navLastTime ≤ FAST_NAV_WINDOW_MS then s.navBurstCount + 1 else 1
    { s with navBurstCount := cnt, navLastTime := now,
             navFastMode := decide (FAST_NAV_THRESHOLD < cnt) }

/-- `enqueueNavAction` of `navigation.js`: push onto the back of the queue,
disabled in revision mode. -/
def enqueueNavAction (t : NavAct) (s : AppState) : AppState :=
  if s.revisionMode then s else { s with navQueue := s.navQueue ++ [t] }

/-- `ensureShuffleQueue` of `navigation.js`. Returns the new state together
with a flag recording whether the unvisited set was regenerated from the deck
(the `unvisited.size === 0` branch). `current` is the `currentCard` argument;
a card number `0` is falsy in JavaScript and is not deleted. -/
def ensureShuffleQueue (current : Option Nat) (rand : List Nat) (s : AppState) :
    AppState × Bool :=
  if s.shuffle = false then (s, false)
  else if s.shuffleQueue.length = 0 then
    if s.unvisited.length = 0 then
      let unv :=
        match current with
        | some c => if c = 0 then newSet s.deck else jsDel (newSet s.deck) c
        | none => newSet s.deck
      ({ s with unvisited := unv, shuffleQueue := shuffleArray rand unv }, true)
    else
      ({ s with shuffleQueue := shuffleArray rand s.unvisited }, false)
  else (s, false)

/-- The bounded history push shared by `nextCard`, `nextRevisionCard` and the
swipe handler: append, and when the capacity is exceeded shift off the oldest
entry and pin the pointer to `MAX_HISTORY - 1`, else advance the pointer. -/
def pushHistoryBounded (c : Nat) (s : AppState) : AppState :=
  let h := s.history ++ [c]
  if MAX_HISTORY < h.length then
    { s with history := h.tail, historyIndex := (MAX_HISTORY : Int) - 1 }
  else
    { s with history := h, historyIndex := s.historyIndex + 1 }

/-- Randomness and options for one `nextCard` call: the `queued` option, the
`nowMs()` reading, and the Fisher-Yates draws for the two possible
`ensureShuffleQueue` refills. -/
structure NavParams where
  queued : Bool := false
  now : Nat := 0
  rand1 : List Nat := []
  rand2 : List Nat := []
deriving DecidableEq

/-- Result of one `nextCard` call: the new state, the card newly drawn and
appended to history (if the shuffle draw branch ran), and whether either
`ensureShuffleQueue` call regenerated the unvisited set from the deck. -/
structure NavOut where
  st : AppState
  drawn : Option Nat := none
  regen : Bool := false
deriving DecidableEq

/-- `nextCard` of `navigation.js` (state effects; presentation calls dropped),
instrumented with the drawn card and the regeneration flag. -/
def nextCardAux (p : NavParams) (s0 : AppState) : NavOut :=
  if s0.deck.length = 0 then { st := s0 }
  else
    let s := if p.queued = false ∧ s0.revisionMode = false then recordFastNavBurst p.now s0 else s0
    if s.isTransitioning then
      if s.revisionMode = false ∧ p.queued = false then { st := enqueueNavAction NavAct.next s }
      else { st := s }
    else if s.shuffle then
      if s.historyIndex < (s.history.length : Int) - 1 then
        { st := { s with historyIndex := s.historyIndex + 1 } }
      else
        let current := getCurrentCard s
        let e1 := ensureShuffleQueue current p.rand1 s
        match (e1.1).shuffleQueue.getLast? with
        | some c =>
          let s2 := { e1.1 with shuffleQueue := (e1.1).shuffleQueue.dropLast }
          let s3 := pushHistoryBounded c s2
          let s4 := { s3 with unvisited := jsDel s3.unvisited c }
          let e2 := ensureShuffleQueue (some c) p.rand2 s4
          { st := e2.1, drawn := some c, regen := e1.2 || e2.2 }
        | none =>
          match (e1.1).deck.head? with
          | some c =>
            let s3 := pushHistoryBounded c e1.1
            let s4 := { s3 with unvisited := jsDel s3.unvisited c }
            let e2 := ensureShuffleQueue (some c) p.rand2 s4
            { st := e2.1, drawn := some c, regen := e1.2 || e2.2 }
          | none => { st := e1.1, regen := e1.2 }
    else
      { st := { s with currentIndex := (s.currentIndex + 1) % s.deck.length } }

/-- `nextCard` of `navigation.js`: the state effect alone. -/
def nextCard (p : NavParams) (s : AppState) : AppState :=
  (nextCardAux p s).st

/-- `prevCard` of `navigation.js` (state effects; presentation calls dropped). -/
def prevCard (queued : Bool) (now : Nat) (s0 : AppState) : AppState :=
  if s0.deck.length = 0 then s0
  else
    let canNav : Bool := if s0.shuffle then decide ((0 : Int) < s0.historyIndex) else true
    if canNav = false then s0
    else
      let s := if queued = false ∧ s0.revisionMode = false then recordFastNavBurst now s0 else s0
      if s.isTransitioning then
        if s.revisionMode = false ∧ queued = false then enqueueNavAction NavAct.prev s else s
      else if s.shuffle then { s with historyIndex := s.historyIndex - 1 }
      else { s with currentIndex := (s.currentIndex + s.deck.length - 1) % s.deck.length }

/-- `processNavQueue` of `navigation.js`: clear the queue in revision mode,
else replay the front queued action (if any) once no transition is running. -/
def processNavQueue (p : NavParams) (s : AppState) : AppState :=
  if s.revisionMode then { s with navQueue := [] }
  else
    match s.navQueue with
    | [] => s
    | a :: rest =>
      if s.isTransitioning then s
      else
        let s' := { s with navQueue := rest }
        match a with
        | NavAct.next => nextCard { queued := true, now := p.now, rand1 := p.rand1, rand2 := p.rand2 } s'
        | NavAct.prev => prevCard true p.now s'

/-- The shuffle-mode `else` branch of the position reset in `rebuildDeck`:
filter the history down to the new deck, reseeding it with a random deck member
when that empties it while the deck is non-empty. -/
def rebuildDeckElseShuffle (newDeck : List Nat) (ri : Nat) (s : AppState) : AppState :=
  let h := s.history.filter (fun c => c ∈ newDeck)
  if h.length = 0 ∧ newDeck.length ≠ 0 then
    { s with deck := newDeck, history := [newDeck.getD (ri % newDeck.length) 0],
             historyIndex := 0 }
  else
    { s with deck := newDeck, history := h,
             historyIndex := min s.historyIndex ((h.length : Int) - 1) }

/-- `rebuildDeck` of `navigation.js`: recompute the deck, then reset the session
position per mode. `fav` is the stored favourites set and `ri` the random draw
used when the filtered history must be reseeded. -/
def rebuildDeck (keep : Option Nat) (fav : List Nat) (ri : Nat) (s : AppState) : AppState :=
  let newDeck := computeDeck s.manifest s.total s.filterTimer s.filterDifficulty
    s.showFavouritesOnly fav
  if s.shuffle then
    let s1 :=
      match keep with
      | some k =>
        if k ∈ newDeck then
          let h := if k ∈ s.history then s.history else [k]
          let idx := jsIndexOf h k
          { s with deck := newDeck, history := h,
                   historyIndex := if idx < 0 then 0 else idx }
        else rebuildDeckElseShuffle newDeck ri s
      | none => rebuildDeckElseShuffle newDeck ri s
    { s1 with unvisited := s1.history.foldl jsDel (newSet newDeck), shuffleQueue := [] }
  else
    match keep with
    | some k =>
      if k ∈ newDeck then { s with deck := newDeck, currentIndex := newDeck.indexOf k }
      else { s with deck := newDeck, currentIndex := 0 }
    | none => { s with deck := newDeck, currentIndex := 0 }

/-- `loadHistory` of `storage.js`: the stored history filtered to deck members,
capped to the last `MAX_HISTORY` entries. `stored` is the persisted array. -/
def loadHistoryModel (stored : List Nat) (s : AppState) : List Nat :=
  takeLastN MAX_HISTORY (stored.filter (fun c => c ∈ s.deck))

/-- `toggleShuffle` of `navigation.js`. `stored` is the persisted history and
`rand` the Fisher-Yates draws for the trailing `ensureShuffleQueue` call. -/
def toggleShuffle (stored : List Nat) (rand : List Nat) (s : AppState) : AppState :=
  if s.showFavouritesOnly = true ∧ s.shuffle = false then s
  else
    let currentCardBeforeToggle := getCurrentCard s
    let sT := { s with shuffle := !s.shuffle }
    let s1 :=
      if sT.shuffle then
        let saved := loadHistoryModel stored sT
        let s' :=
          if saved.length ≠ 0 ∧ saved.getLast? = currentCardBeforeToggle then
            { sT with history := saved, historyIndex := (saved.length : Int) - 1 }
          else
            match currentCardBeforeToggle with
            | some c =>
              if c = 0 then { sT with history := [], historyIndex := -1 }
              else { sT with history := [c], historyIndex := 0 }
            | none => { sT with history := [], historyIndex := -1 }
        { s' with unvisited := s'.history.foldl jsDel (newSet s'.deck), shuffleQueue := [] }
      else
        let s' :=
          match currentCardBeforeToggle with
          | some c =>
            if c = 0 then sT
            else
              let i := jsIndexOf sT.deck c
              { sT with currentIndex := if i = -1 then 0 else i.toNat }
          | none => sT
        { s' with shuffleQueue := [] }
    (ensureShuffleQueue (getCurrentCard s1) rand s1).1

/-- `toggleFavouritesOnly` of `navigation.js`. `stored` is the persisted
history (for the inner `toggleShuffle`), `fav` the stored favourites set,
`rand` the shuffle draws and `ri` the `rebuildDeck` reseed draw. -/
def toggleFavouritesOnly (stored fav : List Nat) (rand : List Nat) (ri : Nat)
    (s : AppState) : AppState :=
  if s.isTransitioning then s
  else
    let entering := s.showFavouritesOnly = false
    let s1 :=
      if entering then
        { s with lastCardBeforeFavourites := getCurrentCard s,
                 wasShuffleBeforeFavourites := s.shuffle }
      else s
    let s2 := { s1 with showFavouritesOnly := !s1.showFavouritesOnly }
    if s2.showFavouritesOnly then
      if s2.shuffle then
        let s3 := toggleShuffle stored rand s2
        rebuildDeck (getCurrentCard s3) fav ri s3
      else rebuildDeck (getCurrentCard s2) fav ri s2
    else
      let keep := s2.lastCardBeforeFavourites
      let s3 :=
        if s2.wasShuffleBeforeFavourites = true ∧ s2.shuffle = false then
          { s2 with shuffle := true }
        else s2
      rebuildDeck keep fav ri s3

/-- `resetRevisionProgress` of `revision-mode.js`. -/
def resetRevisionProgress (s : AppState) : AppState :=
  { s with revisionRound := 1, revisionIncorrect := [], revisionSeen := [],
           revisionMastered := [] }

/-- `resetShuffleForRevision` of `revision-mode.js`: reseed history, unvisited
set and shuffle queue from the current revision deck, preferring `preferred`
when it is a live deck member. `ri` is the random seed draw and `rand` the
Fisher-Yates draws. -/
def resetShuffleForRevision (preferred : Option Nat) (ri : Nat) (rand : List Nat)
    (s : AppState) : AppState :=
  let currentDeck := getCurrentRevisionDeck s
  let s1 := { s with unvisited := newSet currentDeck, history := [], historyIndex := -1 }
  if currentDeck.length = 0 then { s1 with shuffleQueue := [] }
  else
    let firstCard :=
      match preferred with
      | some c =>
        if c ∈ s1.unvisited then c else currentDeck.getD (ri % currentDeck.length) 0
      | none => currentDeck.getD (ri % currentDeck.length) 0
    { s1 with history := [firstCard], historyIndex := 0,
              unvisited := jsDel s1.unvisited firstCard,
              shuffleQueue := shuffleArray rand (jsDel s1.unvisited firstCard) }

/-- `checkRoundComplete` of `revision-mode.js`: `seen.size >= currentDeck.length`. -/
def checkRoundComplete (s : AppState) : Bool :=
  decide ((getCurrentRevisionDeck s).length ≤ s.revisionSeen.length)

/-- `startNewRevisionRound` of `revision-mode.js`: advance the round counter,
clear the seen set, narrow the deck to the incorrect set when non-empty
(`Array.from` of the set, in insertion order), and reseed the shuffle state. -/
def startNewRevisionRound (ri : Nat) (rand : List Nat) (s : AppState) : AppState :=
  let s1 := { s with revisionRound := s.revisionRound + 1, revisionSeen := [] }
  let s2 := if s1.revisionIncorrect.length ≠ 0 then { s1 with deck := s1.revisionIncorrect } else s1
  resetShuffleForRevision none ri rand s2

/-- `handleRoundComplete` of `revision-mode.js`: terminal completion when the
incorrect set is empty, else a new round. -/
def handleRoundComplete (ri : Nat) (rand : List Nat) (s : AppState) :
    AppState × RoundResult :=
  if s.revisionIncorrect.length = 0 then (s, RoundResult.complete)
  else (startNewRevisionRound ri rand s, RoundResult.newRound)

/-- `nextRevisionCard` of `revision-mode.js`: draw a uniformly random unseen
deck card (`pick` is the random index draw), append it to the bounded history
and remove it from the unvisited set; when no unseen card remains, delegate to
`handleRoundComplete` (whose outcome is reported in the second component). -/
def nextRevisionCard (pick ri : Nat) (rand : List Nat) (s : AppState) :
    AppState × Option RoundResult :=
  if s.deck.length = 0 then (s, none)
  else
    let unseen := s.deck.filter (fun c => ¬ c ∈ s.revisionSeen)
    if unseen.length = 0 then
      let r := handleRoundComplete ri rand s
      (r.1, some r.2)
    else
      let c := unseen.getD (pick % unseen.length) 0
      let s1 := pushHistoryBounded c s
      ({ s1 with unvisited := jsDel s1.unvisited c }, none)

/-- The set mutations of `markCardOK`: clear incorrect membership, add to
mastered and seen. -/
def markOKSets (c : Nat) (s : AppState) : AppState :=
  { s with revisionIncorrect := jsDel s.revisionIncorrect c,
           revisionMastered := jsAdd s.revisionMastered c,
           revisionSeen := jsAdd s.revisionSeen c }

/-- The set mutations of `markCardPasOK`: add to incorrect and seen, clear
mastered membership. -/
def markPasOKSets (c : Nat) (s : AppState) : AppState :=
  { s with revisionIncorrect := jsAdd s.revisionIncorrect c,
           revisionSeen := jsAdd s.revisionSeen c,
           revisionMastered := jsDel s.revisionMastered c }

/-- `markCardOK` of `revision-mode.js`: mark the current card mastered, then
handle round completion or draw the next revision card. The second component
reports round-completion handling (`some`) and its outcome. A card number `0`
is falsy in JavaScript and aborts like a missing current card. -/
def markCardOK (pick ri : Nat) (rand : List Nat) (s : AppState) :
    AppState × Option RoundResult :=
  match getCurrentCard s with
  | none => (s, none)
  | some c =>
    if c = 0 then (s, none)
    else
      let s1 := markOKSets c s
      if checkRoundComplete s1 then
        let r := handleRoundComplete ri rand s1
        (r.1, some r.2)
      else nextRevisionCard pick ri rand s1

/-- `markCardPasOK` of `revision-mode.js`: mark the current card incorrect,
then handle round completion or draw the next revision card. -/
def markCardPasOK (pick ri : Nat) (rand : List Nat) (s : AppState) :
    AppState × Option RoundResult :=
  match getCurrentCard s with
  | none => (s, none)
  | some c =>
    if c = 0 then (s, none)
    else
      let s1 := markPasOKSets c s
      if checkRoundComplete s1 then
        let r := handleRoundComplete ri rand s1
        (r.1, some r.2)
      else nextRevisionCard pick ri rand s1

/-- Persisted revision progress (`loadRevisionProgress` of `storage.js`). -/
structure RevProgress where
  round : Nat := 1
  incorrect : List Nat := []
  seen : List Nat := []
  mastered : List Nat := []
deriving DecidableEq

/-- `toggleRevisionMode` of `revision-mode.js`. `progress` is the persisted
progress (`loadRevisionProgress()`), `ri` / `rand` the revision reseed draws,
and `fav` / `rebRi` the `rebuildDeck` inputs used when leaving revision mode. -/
def toggleRevisionMode (progress : Option RevProgress) (ri : Nat) (rand : List Nat)
    (fav : List Nat) (rebRi : Nat) (s : AppState) : AppState :=
  let previousCard := getCurrentCard s
  let s1 := resetFastNavState { s with revisionMode := !s.revisionMode }
  if s1.revisionMode then
    let s2 :=
      match progress with
      | some p =>
        let sa := { s1 with revisionRound := p.round, revisionIncorrect := p.incorrect,
                            revisionSeen := p.seen, revisionMastered := p.mastered }
        if 1 < p.round ∧ p.incorrect.length ≠ 0 then { sa with deck := p.incorrect } else sa
      | none => resetRevisionProgress s1
    let s3 := if s2.shuffle = false then { s2 with shuffle := true } else s2
    let s4 := resetShuffleForRevision previousCard ri rand s3
    if s4.showFavouritesOnly then { s4 with showFavouritesOnly := false } else s4
  else
    rebuildDeck (getCurrentCard s1) fav rebRi s1

/-- JavaScript truthiness of an optional string: present and non-empty. -/
def jsTruthyStr : Option String → Bool
  | some str => decide (str ≠ "")
  | none => false

/-- ASCII lowercase conversion for one character (`String.prototype.toLowerCase`
restricted to the ASCII format tokens the resolver handles). -/
def jsToLowerChar (c : Char) : Char :=
  if 'A' ≤ c ∧ c ≤ 'Z' then Char.ofNat (c.toNat + 32) else c

/-- ASCII whitespace characters removed by `String.prototype.trim`. -/
def jsWhitespace (c : Char) : Bool :=
  c = ' ' ∨ c = '\t' ∨ c = '\n' ∨ c = '\r'

/-- `normalizeExt` of `image-loader.js`: trim surrounding whitespace, then
lowercase (character-list model of `ext.trim().toLowerCase()`). -/
def normalizeExt (e : String) : String :=
  String.mk ((((e.data.dropWhile jsWhitespace).reverse.dropWhile
    jsWhitespace).reverse).map jsToLowerChar)

/-- `deriveFormatsFromManifest` of `image-loader.js`: normalized per-side
format hints from `image_formats` and the singular `image_format`, with the
`default` key backfilled and then used to backfill missing sides. -/
def deriveFormatsFromManifest (m? : Option Manifest) : Option FormatsObj :=
  match m? with
  | none => none
  | some m =>
    let f1 : FormatsObj :=
      match m.image_formats with
      | some raw =>
        { front := match raw.front with
                   | some x => if x ≠ "" then some (normalizeExt x) else none
                   | none => none,
          back := match raw.back with
                  | some x => if x ≠ "" then some (normalizeExt x) else none
                  | none => none,
          dflt := match raw.dflt with
                  | some x => if x ≠ "" then some (normalizeExt x) else none
                  | none => none }
      | none => {}
    let f2 : FormatsObj :=
      match m.image_format with
      | some x =>
        if x ≠ "" then
          let e := normalizeExt x
          if e ≠ "" then
            { front := if jsTruthyStr f1.front then f1.front else some e,
              back := if jsTruthyStr f1.back then f1.back else some e,
              dflt := if jsTruthyStr f1.dflt then f1.dflt else some e }
          else f1
        else f1
      | none => f1
    if f2.front = none ∧ f2.back = none ∧ f2.dflt = none then none
    else
      let d :=
        if jsTruthyStr f2.dflt then f2.dflt
        else if jsTruthyStr f2.front ∧ jsTruthyStr f2.back ∧ f2.front = f2.back then f2.front
        else if jsTruthyStr f2.front then f2.front
        else if jsTruthyStr f2.back then f2.back
        else f2.dflt
      some { front := if jsTruthyStr f2.front = false ∧ jsTruthyStr d then d else f2.front,
             back := if jsTruthyStr f2.back = false ∧ jsTruthyStr d then d else f2.back,
             dflt := d }

/-- `getPreferredFormats` of `image-loader.js`: the side-specific hint then the
default hint, truthy entries only, deduplicated. `side` is the `prefix`
argument (`"front"` or `"back"`). -/
def getPreferredFormats (side : String) (formats : Option FormatsObj) : List String :=
  match formats with
  | none => []
  | some f =>
    let sel := if side = "front" then f.front else if side = "back" then f.back else none
    let ordered := (if jsTruthyStr sel then [sel.getD ""] else []) ++
                   (if jsTruthyStr f.dflt then [f.dflt.getD ""] else [])
    newSet (ordered.filter (fun e => e ≠ ""))

/-- `appendQueryParam` of `image-loader.js` (`encodeURIComponent` is the
identity on the URL-safe tokens used). -/
def appendQueryParam (url key : String) (value : Option String) : String :=
  match value with
  | none => url
  | some v =>
    if v = "" then url
    else url ++ (if url.contains '?' then "&" else "?") ++ key ++ "=" ++ v

/-- `addCacheBustParam` of `image-loader.js`; `token` is the generated
cache-bust token. -/
def addCacheBustParam (url : String) (token : String) : String :=
  appendQueryParam url "cb" (some token)

/-- `buildImageURL` of `image-loader.js`: `base/side+number.ext` plus the
version query parameter when a version token is known. -/
def buildImageURL (basePath side : String) (n : Nat) (version : Option String)
    (ext : String) : String :=
  appendQueryParam (basePath ++ "/" ++ side ++ toString n ++ "." ++ ext) "v" version

/-- Result of `loadCardImage`: success flag, resolved URL, winning extension. -/
structure LoadResult where
  ok : Bool
  src : String
  ext : Option String := none
deriving DecidableEq

/-- The candidate loop of `loadCardImage`: for each candidate extension build
the URL; in probe mode attempt once with a probe token; otherwise attempt, and
on failure retry the same URL exactly once with an appended cache-bust token
before moving to the next candidate. Returns the result (carrying the last
attempted URL on total failure) and the ordered trace of attempted URLs.
`oracle` gives the `loadImage` outcome per URL. -/
def tryCandidates (oracle : String → Bool) (basePath side : String) (n : Nat)
    (version : Option String) (probe : Bool) (probeTs cbToken : String) :
    List String → String → LoadResult × List String
  | [], lastTried => ({ ok := false, src := lastTried }, [])
  | ext :: rest, _ =>
    let url := buildImageURL basePath side n version ext
    if probe then
      let purl := appendQueryParam url "probe" (some probeTs)
      if oracle purl then ({ ok := true, src := purl, ext := some ext }, [purl])
      else
        let r := tryCandidates oracle basePath side n version probe probeTs cbToken rest purl
        (r.1, purl :: r.2)
    else
      if oracle url then ({ ok := true, src := url, ext := some ext }, [url])
      else
        let burl := addCacheBustParam url cbToken
        if oracle burl then ({ ok := true, src := burl, ext := some ext }, [url, burl])
        else
          let r := tryCandidates oracle basePath side n version probe probeTs cbToken rest burl
          (r.1, url :: burl :: r.2)

/-- `loadCardImage` of `image-loader.js`: assemble the deduplicated candidate
extension list (cached extension, manifest-preferred formats, global fallback
order) and run the candidate loop, returning the result and the ordered trace
of attempted URLs. `cachedExt` is the `imageFormatCache` entry for this
(base, side, number). -/
def loadCardImage (oracle : String → Bool) (side : String) (n : Nat)
    (basePath : String) (cachedExt : Option String) (formats : Option FormatsObj)
    (version : Option String) (probe : Bool) (probeTs cbToken : String) :
    LoadResult × List String :=
  if basePath = "" then ({ ok := false, src := "" }, [])
  else
    let baseCandidates := getPreferredFormats side formats
    let candidateSet :=
      (match cachedExt with | some e => [e] | none => []) ++ baseCandidates ++ IMAGE_FORMATS
    let candidates := newSet (candidateSet.filter (fun e => e ≠ ""))
    if candidates.length = 0 then ({ ok := false, src := "" }, [])
    else tryCandidates oracle basePath side n version probe probeTs cbToken candidates ""

/-- The history soundness invariant of the spec: the history never exceeds the
capacity, and the pointer is a valid index when the history is non-empty and
`-1` when it is empty. -/
def histInv (s : AppState) : Prop :=
  s.history.length ≤ MAX_HISTORY ∧
  (s.history.length = 0 → s.historyIndex = -1) ∧
  (s.history.length ≠ 0 → 0 ≤ s.historyIndex ∧ s.historyIndex < (s.history.length : Int))

instance (s : AppState) : Decidable (histInv s) := by
  unfold histInv
  infer_instance

/-- Structural invariant of the shuffle draw machinery: shuffle mode is on, the
unvisited set and queue are duplicate-free, the queue draws from the unvisited
set, the unvisited set stays within the deck, and the deck holds positive card
numbers. -/
def ShuffleInv (s : AppState) : Prop :=
  s.shuffle = true ∧ s.unvisited.Nodup ∧ s.shuffleQueue.Nodup ∧
  (∀ x ∈ s.shuffleQueue, x ∈ s.unvisited) ∧
  (∀ x ∈ s.unvisited, x ∈ s.deck) ∧ ¬ 0 ∈ s.deck

instance (s : AppState) : Decidable (ShuffleInv s) := by
  unfold ShuffleInv
  infer_instance

/-- Cards drawn along a run of `nextCard` steps (one `NavParams` per step). -/
def runDrawn : AppState → List NavParams → List Nat
  | _, [] => []
  | s, p :: ps =>
    let o := nextCardAux p s
    (match o.drawn with | some c => [c] | none => []) ++ runDrawn o.st ps

/-- Whether no step of a run of `nextCard` steps regenerates the unvisited set. -/
def runNoRegen : AppState → List NavParams → Bool
  | _, [] => true
  | s, p :: ps =>
    let o := nextCardAux p s
    !o.regen && runNoRegen o.st ps

/-- Shuffle / favourites-only mutual exclusion: never both active. -/
def shuffleFavExclusive (s : AppState) : Prop :=
  ¬ (s.shuffle = true ∧ s.showFavouritesOnly = true)

instance (s : AppState) : Decidable (shuffleFavExclusive s) := by
  unfold shuffleFavExclusive
  infer_instance

/-! ### Basic lemmas about the JavaScript `Set` model -/

@[simp]
theorem mem_jsAdd {α : Type} [DecidableEq α] {s : List α} {x y : α} :
    x ∈ jsAdd s y ↔ x ∈ s ∨ x = y := by
  unfold jsAdd
  split <;> rename_i h
  · constructor
    · exact fun hx => Or.inl hx
    · rintro (hx | rfl) <;> [exact hx; exact h]
  · simp

theorem jsAdd_nodup {α : Type} [DecidableEq α] {s : List α} (h : s.Nodup) (y : α) :
    (jsAdd s y).Nodup := by
  unfold jsAdd
  split <;> rename_i hy
  · exact h
  · simpa [List.nodup_append] using ⟨h, hy⟩

theorem length_jsAdd {α : Type} [DecidableEq α] (s : List α) (y : α) :
    (jsAdd s y).length = if y ∈ s then s.length else s.length + 1 := by
  unfold jsAdd
  split <;> simp_all

@[simp]
theorem mem_jsDel {α : Type} [DecidableEq α] {s : List α} {x y : α} :
    x ∈ jsDel s y ↔ x ∈ s ∧ x ≠ y := by
  unfold jsDel
  simp

theorem jsDel_nodup {α : Type} [DecidableEq α] {s : List α} (h : s.Nodup) (y : α) :
    (jsDel s y).Nodup :=
  h.filter _

theorem mem_foldl_jsAdd {α : Type} [DecidableEq α] (l acc : List α) (x : α) :
    x ∈ l.foldl jsAdd acc ↔ x ∈ acc ∨ x ∈ l := by
  induction l generalizing acc with
  | nil => simp
  | cons a t ih =>
    simp only [List.foldl_cons, ih, mem_jsAdd, List.mem_cons]
    tauto

theorem foldl_jsAdd_nodup {α : Type} [DecidableEq α] (l : List α) {acc : List α}
    (h : acc.Nodup) : (l.foldl jsAdd acc).Nodup := by
  induction l generalizing acc with
  | nil => exact h
  | cons a t ih => exact ih (jsAdd_nodup h a)

@[simp]
theorem mem_newSet {α : Type} [DecidableEq α] {l : List α} {x : α} :
    x ∈ newSet l ↔ x ∈ l := by
  unfold newSet
  simp [mem_foldl_jsAdd]

theorem newSet_nodup {α : Type} [DecidableEq α] (l : List α) : (newSet l).Nodup :=
  foldl_jsAdd_nodup l List.nodup_nil

theorem mem_foldl_jsDel {α : Type} [DecidableEq α] (l acc : List α) (x : α) :
    x ∈ l.foldl jsDel acc ↔ x ∈ acc ∧ ¬ x ∈ l := by
  induction l generalizing acc with
  | nil => simp
  | cons a t ih =>
    simp only [List.foldl_cons, ih, mem_jsDel, List.mem_cons]
    tauto

theorem foldl_jsDel_nodup {α : Type} [DecidableEq α] (l : List α) {acc : List α}
    (h : acc.Nodup) : (l.foldl jsDel acc).Nodup := by
  induction l generalizing acc with
  | nil => exact h
  | cons a t ih => exact ih (jsDel_nodup h a)

/-! ### The Fisher-Yates shuffle is a permutation -/

theorem cons_set_perm {α : Type} (t : List α) (k : Nat) (a b : α)
    (h : t.get? k = some b) : (b :: t.set k a).Perm (a :: t) := by
  induction t generalizing k with
  | nil => simp at h
  | cons y t2 ih =>
    cases k with
    | zero =>
      simp only [List.get?] at h
      cases h
      simpa using List.Perm.swap a b t2
    | succ m =>
      simp only [List.get?] at h
      have step1 : (b :: y :: t2.set m a).Perm (y :: b :: t2.set m a) :=
        List.Perm.swap y b _
      have step2 : (y :: b :: t2.set m a).Perm (y :: a :: t2) :=
        List.Perm.cons y (ih m h)
      have step3 : (y :: a :: t2).Perm (a :: y :: t2) := List.Perm.swap a y t2
      simpa using (step1.trans step2).trans step3

theorem swapL_perm (l : List Nat) (i j : Nat) : (swapL l i j).Perm l := by
  unfold swapL
  split
  · rename_i a b h1 h2
    induction l generalizing i j with
    | nil => simp at h1
    | cons x t ih =>
      cases i with
      | zero =>
        simp only [List.get?] at h1
        cases h1
        cases j with
        | zero =>
          simp only [List.get?] at h2
          cases h2
          simp
        | succ m =>
          simp only [List.get?] at h2
          simpa using cons_set_perm t m a b h2
      | succ k =>
        cases j with
        | zero =>
          simp only [List.get?] at h2
          cases h2
          simp only [List.get?] at h1
          simpa using cons_set_perm t k b a h1
        | succ m =>
          simp only [List.get?] at h1 h2
          simpa using List.Perm.cons x (ih k m h1 h2)
  · exact List.Perm.refl l

theorem fisherYates_perm (i : Nat) : ∀ (rand arr : List Nat), (fisherYates rand arr i).Perm arr := by
  induction i with
  | zero => intro rand arr; exact List.Perm.refl _
  | succ n ih =>
    intro rand arr
    exact (ih rand.tail _).trans (swapL_perm arr (n + 1) (rand.headD 0 % (n + 2)))

theorem shuffleArray_perm (rand items : List Nat) : (shuffleArray rand items).Perm items :=
  fisherYates_perm (items.length - 1) rand items

theorem shuffleArray_nodup (rand : List Nat) {items : List Nat} (h : items.Nodup) :
    (shuffleArray rand items).Nodup :=
  (shuffleArray_perm rand items).nodup_iff.mpr h

theorem mem_shuffleArray {rand items : List Nat} {x : Nat} :
    x ∈ shuffleArray rand items ↔ x ∈ items :=
  (shuffleArray_perm rand items).mem_iff

/-! ### Frame lemmas for the fast-navigation burst tracker -/

theorem recordFastNavBurst_frame (now : Nat) (s : AppState) :
    (recordFastNavBurst now s).deck = s.deck ∧
    (recordFastNavBurst now s).shuffle = s.shuffle ∧
    (recordFastNavBurst now s).isTransitioning = s.isTransitioning ∧
    (recordFastNavBurst now s).revisionMode = s.revisionMode ∧
    (recordFastNavBurst now s).currentIndex = s.currentIndex ∧
    (recordFastNavBurst now s).history = s.history ∧
    (recordFastNavBurst now s).historyIndex = s.historyIndex ∧
    (recordFastNavBurst now s).unvisited = s.unvisited ∧
    (recordFastNavBurst now s).shuffleQueue = s.shuffleQueue ∧
    (recordFastNavBurst now s).showFavouritesOnly = s.showFavouritesOnly := by
  unfold recordFastNavBurst resetFastNavState
  split <;> simp

theorem recordFastNavBurst_navQueue (now : Nat) (s : AppState)
    (h : s.revisionMode = false) :
    (recordFastNavBurst now s).navQueue = s.navQueue := by
  unfold recordFastNavBurst
  simp [h]

theorem enqueueNavAction_frame (t : NavAct) (s : AppState) :
    (enqueueNavAction t s).deck = s.deck ∧
    (enqueueNavAction t s).shuffle = s.shuffle ∧
    (enqueueNavAction t s).currentIndex = s.currentIndex ∧
    (enqueueNavAction t s).history = s.history ∧
    (enqueueNavAction t s).historyIndex = s.historyIndex ∧
    (enqueueNavAction t s).unvisited = s.unvisited ∧
    (enqueueNavAction t s).shuffleQueue = s.shuffleQueue := by
  unfold enqueueNavAction
  split <;> simp

/-! ### Sequential-mode navigation -/

theorem nextCard_seq (p : NavParams) (s : AppState) (hsh : s.shuffle = false)
    (ht : s.isTransitioning = false) (hd : s.deck.length ≠ 0) :
    (nextCard p s).currentIndex = (s.currentIndex + 1) % s.deck.length ∧
    (nextCard p s).shuffle = false ∧ (nextCard p s).isTransitioning = false ∧
    (nextCard p s).deck = s.deck := by
  unfold nextCard nextCardAux
  by_cases hq : p.queued = false ∧ s.revisionMode = false
  · obtain ⟨f1, f2, f3, f4, f5, -⟩ := recordFastNavBurst_frame p.now s
    simp [hd, hq, f1, f2, f3, f4, f5, ht, hsh]
  · simp [hd, hq, ht, hsh]

theorem prevCard_seq (q : Bool) (now : Nat) (s : AppState) (hsh : s.shuffle = false)
    (ht : s.isTransitioning = false) (hd : s.deck.length ≠ 0) :
    (prevCard q now s).currentIndex = (s.currentIndex + s.deck.length - 1) % s.deck.length := by
  unfold prevCard
  by_cases hq : q = false ∧ s.revisionMode = false
  · obtain ⟨f1, f2, f3, f4, f5, -⟩ := recordFastNavBurst_frame now s
    simp [hd, hq, f1, f2, f3, f4, f5, ht, hsh]
  · simp [hd, hq, ht, hsh]

theorem next_prev_mod (len i : Nat) (h : i < len) :
    ((i + 1) % len + len - 1) % len = i := by
  rcases Nat.lt_or_ge (i + 1) len with h1 | h1
  · rw [Nat.mod_eq_of_lt h1]
    have he : i + 1 + len - 1 = i + len := by omega
    rw [he, Nat.add_mod_right]
    exact Nat.mod_eq_of_lt h
  · have hlen : i + 1 = len := by omega
    rw [hlen, Nat.mod_self]
    have he : 0 + len - 1 = len - 1 := by omega
    rw [he, Nat.mod_eq_of_lt (by omega)]
    omega

/-- C9: in sequential mode (no transition lock, non-empty deck), the
`nextCard` index update followed by the `prevCard` index update returns the
current index to its starting value, and both wrap-around ends behave as
stated: from index `length - 1` a `nextCard` wraps to `0`, and from index `0`
a `prevCard` wraps to `length - 1`. -/
theorem claim_C9_seq_next_prev_roundtrip (s : AppState) (p : NavParams) (q2 : Bool)
    (now2 : Nat) (hsh : s.shuffle = false) (ht : s.isTransitioning = false)
    (hd : s.deck.length ≠ 0) (hi : s.currentIndex < s.deck.length) :
    (prevCard q2 now2 (nextCard p s)).currentIndex = s.currentIndex ∧
    (s.currentIndex = s.deck.length - 1 → (nextCard p s).currentIndex = 0) ∧
    (s.currentIndex = 0 →
      (prevCard q2 now2 s).currentIndex = s.deck.length - 1) := by
  obtain ⟨hn1, hn2, hn3, hn4⟩ := nextCard_seq p s hsh ht hd
  refine ⟨?_, ?_, ?_⟩
  · have hp := prevCard_seq q2 now2 (nextCard p s) hn2 hn3 (by rw [hn4]; exact hd)
    rw [hp, hn1, hn4, next_prev_mod s.deck.length s.currentIndex hi]
  · intro h0
    rw [hn1, h0]
    have : s.deck.length - 1 + 1 = s.deck.length := by omega
    rw [this, Nat.mod_self]
  · intro h0
    have hp := prevCard_seq q2 now2 s hsh ht hd
    rw [hp, h0]
    have he : 0 + s.deck.length - 1 = s.deck.length - 1 := by omega
    rw [he]
    exact Nat.mod_eq_of_lt (by omega)

/-- Witness for C9 at a concrete state. -/
theorem claim_C9_witness :
    (prevCard false 0 (nextCard {} { deck := [4, 5, 6] })).currentIndex =
      ({ deck := [4, 5, 6] } : AppState).currentIndex :=
  (claim_C9_seq_next_prev_roundtrip { deck := [4, 5, 6] } {} false 0
    (by decide) (by decide) (by decide) (by decide)).1

/-! ### The deck installed by `rebuildDeck` -/

theorem rebuildDeck_deck (keep : Option Nat) (fav : List Nat) (ri : Nat) (s : AppState) :
    (rebuildDeck keep fav ri s).deck =
      computeDeck s.manifest s.total s.filterTimer s.filterDifficulty
        s.showFavouritesOnly fav := by
  unfold rebuildDeck rebuildDeckElseShuffle
  dsimp only
  split
  all_goals (try split)
  all_goals (try split)
  all_goals (try split)
  all_goals (try split)
  all_goals simp

theorem rebuildDeck_inputs_frame (keep : Option Nat) (fav : List Nat) (ri : Nat)
    (s : AppState) :
    (rebuildDeck keep fav ri s).manifest = s.manifest ∧
    (rebuildDeck keep fav ri s).total = s.total ∧
    (rebuildDeck keep fav ri s).filterTimer = s.filterTimer ∧
    (rebuildDeck keep fav ri s).filterDifficulty = s.filterDifficulty ∧
    (rebuildDeck keep fav ri s).showFavouritesOnly = s.showFavouritesOnly ∧
    (rebuildDeck keep fav ri s).shuffle = s.shuffle ∧
    (rebuildDeck keep fav ri s).isTransitioning = s.isTransitioning ∧
    (rebuildDeck keep fav ri s).revisionMode = s.revisionMode ∧
    (rebuildDeck keep fav ri s).wasShuffleBeforeFavourites = s.wasShuffleBeforeFavourites := by
  unfold rebuildDeck rebuildDeckElseShuffle
  dsimp only
  split
  all_goals (try split)
  all_goals (try split)
  all_goals (try split)
  all_goals (try split)
  all_goals simp

/-- C8: the deck computed by `rebuildDeck` depends only on the manifest, the
total card count, the timer and difficulty filters, the favourites-only flag
and the favourites set — not on the `keep` argument, the random draw, or any
other prior state — so two runs over the same inputs install the identical
ordered deck, and running `rebuildDeck` twice in a row installs the same deck
as running it once. -/
theorem claim_C8_rebuildDeck_deterministic (s1 s2 : AppState) (keep1 keep2 : Option Nat)
    (fav : List Nat) (ri1 ri2 : Nat)
    (hm : s1.manifest = s2.manifest) (htot : s1.total = s2.total)
    (htf : s1.filterTimer = s2.filterTimer)
    (hdf : s1.filterDifficulty = s2.filterDifficulty)
    (hfo : s1.showFavouritesOnly = s2.showFavouritesOnly) :
    (rebuildDeck keep1 fav ri1 s1).deck = (rebuildDeck keep2 fav ri2 s2).deck ∧
    (rebuildDeck keep2 fav ri2 (rebuildDeck keep1 fav ri1 s1)).deck =
      (rebuildDeck keep1 fav ri1 s1).deck := by
  constructor
  · rw [rebuildDeck_deck, rebuildDeck_deck, hm, htot, htf, hdf, hfo]
  · obtain ⟨g1, g2, g3, g4, g5, -⟩ := rebuildDeck_inputs_frame keep1 fav ri1 s1
    rw [rebuildDeck_deck, rebuildDeck_deck, g1, g2, g3, g4, g5]

/-- Witness for C8 at concrete states. -/
theorem claim_C8_witness :
    (rebuildDeck none [] 0 { total := 3 }).deck =
      (rebuildDeck (some 2) [] 7 { total := 3, shuffle := true }).deck :=
  (claim_C8_rebuildDeck_deterministic { total := 3 } { total := 3, shuffle := true }
    none (some 2) [] 0 7 rfl rfl rfl rfl rfl).1

/-! ### Frame lemmas for the revision state machine -/

theorem resetShuffleForRevision_frame (pref : Option Nat) (ri : Nat) (rand : List Nat)
    (s : AppState) :
    (resetShuffleForRevision pref ri rand s).revisionIncorrect = s.revisionIncorrect ∧
    (resetShuffleForRevision pref ri rand s).revisionMastered = s.revisionMastered ∧
    (resetShuffleForRevision pref ri rand s).revisionSeen = s.revisionSeen ∧
    (resetShuffleForRevision pref ri rand s).revisionRound = s.revisionRound ∧
    (resetShuffleForRevision pref ri rand s).deck = s.deck := by
  unfold resetShuffleForRevision getCurrentRevisionDeck
  dsimp only
  split
  all_goals (try split)
  all_goals (try split)
  all_goals simp

theorem resetShuffleForRevision_incorrect (pref : Option Nat) (ri : Nat)
    (rand : List Nat) (s : AppState) :
    (resetShuffleForRevision pref ri rand s).revisionIncorrect = s.revisionIncorrect :=
  (resetShuffleForRevision_frame pref ri rand s).1

theorem resetShuffleForRevision_mastered (pref : Option Nat) (ri : Nat)
    (rand : List Nat) (s : AppState) :
    (resetShuffleForRevision pref ri rand s).revisionMastered = s.revisionMastered :=
  (resetShuffleForRevision_frame pref ri rand s).2.1

theorem resetShuffleForRevision_seen (pref : Option Nat) (ri : Nat)
    (rand : List Nat) (s : AppState) :
    (resetShuffleForRevision pref ri rand s).revisionSeen = s.revisionSeen :=
  (resetShuffleForRevision_frame pref ri rand s).2.2.1

theorem resetShuffleForRevision_round (pref : Option Nat) (ri : Nat)
    (rand : List Nat) (s : AppState) :
    (resetShuffleForRevision pref ri rand s).revisionRound = s.revisionRound :=
  (resetShuffleForRevision_frame pref ri rand s).2.2.2.1

theorem resetShuffleForRevision_deck (pref : Option Nat) (ri : Nat)
    (rand : List Nat) (s : AppState) :
    (resetShuffleForRevision pref ri rand s).deck = s.deck :=
  (resetShuffleForRevision_frame pref ri rand s).2.2.2.2

theorem startNewRevisionRound_fields (ri : Nat) (rand : List Nat) (s : AppState) :
    (startNewRevisionRound ri rand s).revisionIncorrect = s.revisionIncorrect ∧
    (startNewRevisionRound ri rand s).revisionMastered = s.revisionMastered ∧
    (startNewRevisionRound ri rand s).revisionSeen = [] ∧
    (startNewRevisionRound ri rand s).revisionRound = s.revisionRound + 1 ∧
    (startNewRevisionRound ri rand s).deck =
      (if s.revisionIncorrect.length ≠ 0 then s.revisionIncorrect else s.deck) := by
  unfold startNewRevisionRound
  dsimp only
  split <;>
    simp_all [resetShuffleForRevision_incorrect, resetShuffleForRevision_mastered,
      resetShuffleForRevision_seen, resetShuffleForRevision_round,
      resetShuffleForRevision_deck]

theorem handleRoundComplete_fields (ri : Nat) (rand : List Nat) (s : AppState) :
    (handleRoundComplete ri rand s).1.revisionIncorrect = s.revisionIncorrect ∧
    (handleRoundComplete ri rand s).1.revisionMastered = s.revisionMastered := by
  unfold handleRoundComplete
  split
  · exact ⟨rfl, rfl⟩
  · obtain ⟨g1, g2, -⟩ := startNewRevisionRound_fields ri rand s
    exact ⟨g1, g2⟩

theorem nextRevisionCard_fields (pick ri : Nat) (rand : List Nat) (s : AppState) :
    (nextRevisionCard pick ri rand s).1.revisionIncorrect = s.revisionIncorrect ∧
    (nextRevisionCard pick ri rand s).1.revisionMastered = s.revisionMastered ∧
    ((nextRevisionCard pick ri rand s).2 = none →
      (nextRevisionCard pick ri rand s).1.revisionSeen = s.revisionSeen) := by
  unfold nextRevisionCard pushHistoryBounded
  dsimp only
  split
  · simp
  · split
    · obtain ⟨g1, g2⟩ := handleRoundComplete_fields ri rand s
      exact ⟨g1, g2, by simp⟩
    · split <;> simp

theorem markCardOK_sets (pick ri : Nat) (rand : List Nat) (s : AppState) (c : Nat)
    (h : getCurrentCard s = some c) (h0 : c ≠ 0) :
    (markCardOK pick ri rand s).1.revisionIncorrect = jsDel s.revisionIncorrect c ∧
    (markCardOK pick ri rand s).1.revisionMastered = jsAdd s.revisionMastered c ∧
    ((markCardOK pick ri rand s).2 = none →
      (markCardOK pick ri rand s).1.revisionSeen = jsAdd s.revisionSeen c) := by
  unfold markCardOK
  rw [h]
  dsimp only
  rw [if_neg h0]
  split
  · obtain ⟨g1, g2⟩ := handleRoundComplete_fields ri rand (markOKSets c s)
    dsimp only
    refine ⟨by rw [g1]; rfl, by rw [g2]; rfl, ?_⟩
    intro hn
    simp at hn
  · obtain ⟨g1, g2, g3⟩ := nextRevisionCard_fields pick ri rand (markOKSets c s)
    refine ⟨by rw [g1]; rfl, by rw [g2]; rfl, ?_⟩
    intro hn
    rw [g3 hn]
    rfl

theorem markCardPasOK_sets (pick ri : Nat) (rand : List Nat) (s : AppState) (c : Nat)
    (h : getCurrentCard s = some c) (h0 : c ≠ 0) :
    (markCardPasOK pick ri rand s).1.revisionIncorrect = jsAdd s.revisionIncorrect c ∧
    (markCardPasOK pick ri rand s).1.revisionMastered = jsDel s.revisionMastered c ∧
    ((markCardPasOK pick ri rand s).2 = none →
      (markCardPasOK pick ri rand s).1.revisionSeen = jsAdd s.revisionSeen c) := by
  unfold markCardPasOK
  rw [h]
  dsimp only
  rw [if_neg h0]
  split
  · obtain ⟨g1, g2⟩ := handleRoundComplete_fields ri rand (markPasOKSets c s)
    dsimp only
    refine ⟨by rw [g1]; rfl, by rw [g2]; rfl, ?_⟩
    intro hn
    simp at hn
  · obtain ⟨g1, g2, g3⟩ := nextRevisionCard_fields pick ri rand (markPasOKSets c s)
    refine ⟨by rw [g1]; rfl, by rw [g2]; rfl, ?_⟩
    intro hn
    rw [g3 hn]
    rfl

/-- C4: after a single mark operation on the current card `c`, the incorrect
and mastered sets are disjoint at `c` (for both `markCardOK` and
`markCardPasOK`); the full operations mutate the three sets exactly as the
mark cores `markOKSets` / `markPasOKSets` do; and with no round completion in
between (nothing else touches these sets between two marks), marking `c` OK
then not-OK leaves it incorrect, unmastered and seen, while the reverse order
leaves it mastered, not incorrect and seen. -/
theorem claim_C4_mark_disjoint_and_order (s : AppState) (pick ri : Nat)
    (rand : List Nat) (c : Nat) (h : getCurrentCard s = some c) (h0 : c ≠ 0) :
    (¬ (c ∈ (markCardOK pick ri rand s).1.revisionIncorrect ∧
        c ∈ (markCardOK pick ri rand s).1.revisionMastered)) ∧
    (¬ (c ∈ (markCardPasOK pick ri rand s).1.revisionIncorrect ∧
        c ∈ (markCardPasOK pick ri rand s).1.revisionMastered)) ∧
    (markCardOK pick ri rand s).1.revisionIncorrect = (markOKSets c s).revisionIncorrect ∧
    (markCardOK pick ri rand s).1.revisionMastered = (markOKSets c s).revisionMastered ∧
    (markCardPasOK pick ri rand s).1.revisionIncorrect = (markPasOKSets c s).revisionIncorrect ∧
    (markCardPasOK pick ri rand s).1.revisionMastered = (markPasOKSets c s).revisionMastered ∧
    (c ∈ (markPasOKSets c (markOKSets c s)).revisionIncorrect ∧
     ¬ c ∈ (markPasOKSets c (markOKSets c s)).revisionMastered ∧
     c ∈ (markPasOKSets c (markOKSets c s)).revisionSeen) ∧
    (c ∈ (markOKSets c (markPasOKSets c s)).revisionMastered ∧
     ¬ c ∈ (markOKSets c (markPasOKSets c s)).revisionIncorrect ∧
     c ∈ (markOKSets c (markPasOKSets c s)).revisionSeen) := by
  obtain ⟨k1, k2, -⟩ := markCardOK_sets pick ri rand s c h h0
  obtain ⟨m1, m2, -⟩ := markCardPasOK_sets pick ri rand s c h h0
  refine ⟨?_, ?_, ?_, ?_, ?_, ?_, ?_, ?_⟩
  · rw [k1]
    rintro ⟨hc, -⟩
    simp at hc
  · rw [m2]
    rintro ⟨-, hc⟩
    simp at hc
  · rw [k1]; rfl
  · rw [k2]; rfl
  · rw [m1]; rfl
  · rw [m2]; rfl
  · unfold markPasOKSets markOKSets
    simp
  · unfold markPasOKSets markOKSets
    simp

/-- Witness for C4 at a concrete state. -/
theorem claim_C4_witness :
    ¬ (1 ∈ (markCardOK 0 0 [] { deck := [1, 2] }).1.revisionIncorrect ∧
       1 ∈ (markCardOK 0 0 [] { deck := [1, 2] }).1.revisionMastered) :=
  (claim_C4_mark_disjoint_and_order { deck := [1, 2] } 0 0 [] 1
    (by decide) (by decide)).1

/-! ### Frame lemmas for `ensureShuffleQueue` and the mode toggles -/

theorem ensureShuffleQueue_fst_frame (cur : Option Nat) (rand : List Nat) (s : AppState) :
    (ensureShuffleQueue cur rand s).1.shuffle = s.shuffle ∧
    (ensureShuffleQueue cur rand s).1.showFavouritesOnly = s.showFavouritesOnly ∧
    (ensureShuffleQueue cur rand s).1.deck = s.deck ∧
    (ensureShuffleQueue cur rand s).1.history = s.history ∧
    (ensureShuffleQueue cur rand s).1.historyIndex = s.historyIndex ∧
    (ensureShuffleQueue cur rand s).1.currentIndex = s.currentIndex ∧
    (ensureShuffleQueue cur rand s).1.navQueue = s.navQueue ∧
    (ensureShuffleQueue cur rand s).1.revisionMode = s.revisionMode ∧
    (ensureShuffleQueue cur rand s).1.isTransitioning = s.isTransitioning ∧
    (ensureShuffleQueue cur rand s).1.wasShuffleBeforeFavourites = s.wasShuffleBeforeFavourites := by
  unfold ensureShuffleQueue
  split
  all_goals (try split)
  all_goals (try split)
  all_goals simp

theorem ensureShuffleQueue_fst_shuffle (cur : Option Nat) (rand : List Nat) (s : AppState) :
    (ensureShuffleQueue cur rand s).1.shuffle = s.shuffle :=
  (ensureShuffleQueue_fst_frame cur rand s).1

theorem ensureShuffleQueue_fst_favOnly (cur : Option Nat) (rand : List Nat) (s : AppState) :
    (ensureShuffleQueue cur rand s).1.showFavouritesOnly = s.showFavouritesOnly :=
  (ensureShuffleQueue_fst_frame cur rand s).2.1

theorem ensureShuffleQueue_fst_wasShuffle (cur : Option Nat) (rand : List Nat) (s : AppState) :
    (ensureShuffleQueue cur rand s).1.wasShuffleBeforeFavourites =
      s.wasShuffleBeforeFavourites :=
  (ensureShuffleQueue_fst_frame cur rand s).2.2.2.2.2.2.2.2.2

theorem toggleShuffle_flags (stored rand : List Nat) (s : AppState) :
    (toggleShuffle stored rand s).showFavouritesOnly = s.showFavouritesOnly ∧
    (toggleShuffle stored rand s).shuffle =
      (if s.showFavouritesOnly = true ∧ s.shuffle = false then s.shuffle else !s.shuffle) ∧
    (toggleShuffle stored rand s).wasShuffleBeforeFavourites =
      s.wasShuffleBeforeFavourites := by
  unfold toggleShuffle
  split
  · simp_all
  · dsimp only
    simp only [ensureShuffleQueue_fst_shuffle, ensureShuffleQueue_fst_favOnly,
      ensureShuffleQueue_fst_wasShuffle]
    split
    all_goals (try split)
    all_goals (try split)
    all_goals (try split)
    all_goals simp_all

theorem resetShuffleForRevision_flags (pref : Option Nat) (ri : Nat) (rand : List Nat)
    (s : AppState) :
    (resetShuffleForRevision pref ri rand s).shuffle = s.shuffle ∧
    (resetShuffleForRevision pref ri rand s).showFavouritesOnly = s.showFavouritesOnly := by
  unfold resetShuffleForRevision getCurrentRevisionDeck
  dsimp only
  split
  all_goals (try split)
  all_goals (try split)
  all_goals simp

theorem rebuildDeck_favOnly (keep : Option Nat) (fav : List Nat) (ri : Nat) (s : AppState) :
    (rebuildDeck keep fav ri s).showFavouritesOnly = s.showFavouritesOnly :=
  (rebuildDeck_inputs_frame keep fav ri s).2.2.2.2.1

theorem rebuildDeck_shuffle (keep : Option Nat) (fav : List Nat) (ri : Nat) (s : AppState) :
    (rebuildDeck keep fav ri s).shuffle = s.shuffle :=
  (rebuildDeck_inputs_frame keep fav ri s).2.2.2.2.2.1

theorem rebuildDeck_wasShuffle (keep : Option Nat) (fav : List Nat) (ri : Nat) (s : AppState) :
    (rebuildDeck keep fav ri s).wasShuffleBeforeFavourites = s.wasShuffleBeforeFavourites :=
  (rebuildDeck_inputs_frame keep fav ri s).2.2.2.2.2.2.2.2

theorem toggleShuffle_favOnly (stored rand : List Nat) (s : AppState) :
    (toggleShuffle stored rand s).showFavouritesOnly = s.showFavouritesOnly :=
  (toggleShuffle_flags stored rand s).1

theorem toggleShuffle_shuffle (stored rand : List Nat) (s : AppState) :
    (toggleShuffle stored rand s).shuffle =
      (if s.showFavouritesOnly = true ∧ s.shuffle = false then s.shuffle else !s.shuffle) :=
  (toggleShuffle_flags stored rand s).2.1

theorem toggleShuffle_wasShuffle (stored rand : List Nat) (s : AppState) :
    (toggleShuffle stored rand s).wasShuffleBeforeFavourites =
      s.wasShuffleBeforeFavourites :=
  (toggleShuffle_flags stored rand s).2.2

theorem toggleFavouritesOnly_entering_flags (stored fav rand : List Nat) (ri : Nat)
    (s : AppState) (ht : s.isTransitioning = false) (hf : s.showFavouritesOnly = false) :
    (toggleFavouritesOnly stored fav rand ri s).showFavouritesOnly = true ∧
    (toggleFavouritesOnly stored fav rand ri s).shuffle = false ∧
    (toggleFavouritesOnly stored fav rand ri s).wasShuffleBeforeFavourites = s.shuffle := by
  unfold toggleFavouritesOnly
  rw [if_neg (by simp [ht])]
  dsimp only
  rw [if_pos hf]
  dsimp only
  by_cases hs : s.shuffle = true
  · simp [hf, hs, rebuildDeck_favOnly, rebuildDeck_shuffle, rebuildDeck_wasShuffle,
      toggleShuffle_favOnly, toggleShuffle_shuffle, toggleShuffle_wasShuffle]
  · rw [Bool.not_eq_true] at hs
    simp [hf, hs, rebuildDeck_favOnly, rebuildDeck_shuffle, rebuildDeck_wasShuffle]

theorem toggleFavouritesOnly_leaving_flags (stored fav rand : List Nat) (ri : Nat)
    (s : AppState) (ht : s.isTransitioning = false) (hf : s.showFavouritesOnly = true) :
    (toggleFavouritesOnly stored fav rand ri s).showFavouritesOnly = false ∧
    (s.shuffle = false →
      (toggleFavouritesOnly stored fav rand ri s).shuffle = s.wasShuffleBeforeFavourites) := by
  unfold toggleFavouritesOnly
  rw [if_neg (by simp [ht])]
  dsimp only
  rw [if_neg (by simp [hf])]
  constructor
  · by_cases hw : s.wasShuffleBeforeFavourites = true
    · by_cases hs : s.shuffle = true
      · simp [hf, hw, hs, rebuildDeck_favOnly]
      · rw [Bool.not_eq_true] at hs
        simp [hf, hw, hs, rebuildDeck_favOnly]
    · rw [Bool.not_eq_true] at hw
      simp [hf, hw, rebuildDeck_favOnly]
  · intro hs
    by_cases hw : s.wasShuffleBeforeFavourites = true
    · simp [hf, hw, hs, rebuildDeck_shuffle]
    · rw [Bool.not_eq_true] at hw
      simp [hf, hw, hs, rebuildDeck_shuffle]

theorem clearFavIfSet_favOnly (t : AppState) :
    (if t.showFavouritesOnly then { t with showFavouritesOnly := false }
     else t).showFavouritesOnly = false := by
  split
  · rfl
  · rename_i h
    rw [Bool.not_eq_true] at h
    exact h

theorem toggleRevisionMode_entering_favOnly (prog : Option RevProgress) (ri : Nat)
    (rand : List Nat) (fav : List Nat) (rri : Nat) (s : AppState)
    (hrm : s.revisionMode = false) :
    (toggleRevisionMode prog ri rand fav rri s).showFavouritesOnly = false := by
  unfold toggleRevisionMode resetFastNavState
  dsimp only
  rw [hrm]
  rw [if_pos (by simp)]
  exact clearFavIfSet_favOnly _

theorem toggleRevisionMode_exiting_flags (prog : Option RevProgress) (ri : Nat)
    (rand : List Nat) (fav : List Nat) (rri : Nat) (s : AppState)
    (hrm : s.revisionMode = true) :
    (toggleRevisionMode prog ri rand fav rri s).shuffle = s.shuffle ∧
    (toggleRevisionMode prog ri rand fav rri s).showFavouritesOnly =
      s.showFavouritesOnly := by
  unfold toggleRevisionMode resetFastNavState
  dsimp only
  rw [hrm]
  rw [if_neg (by simp)]
  exact ⟨rebuildDeck_shuffle _ _ _ _, rebuildDeck_favOnly _ _ _ _⟩

/-- C10: shuffle mode and the favourites-only filter are never both active
after a completed mode toggle: each of `toggleShuffle`,
`toggleFavouritesOnly` and `toggleRevisionMode` preserves the exclusion;
`toggleShuffle` refuses to act while favourites-only is active and shuffle is
off; entering favourites-only forces shuffle off while remembering the prior
shuffle setting; and leaving favourites-only clears the filter flag and
restores the remembered shuffle setting. -/
theorem claim_C10_shuffle_fav_exclusive (s : AppState) (stored fav rand : List Nat)
    (ri : Nat) (prog : Option RevProgress) (ri2 : Nat) (rand2 : List Nat)
    (fav2 : List Nat) (ri3 : Nat) :
    (shuffleFavExclusive s → shuffleFavExclusive (toggleShuffle stored rand s)) ∧
    (shuffleFavExclusive s →
      shuffleFavExclusive (toggleFavouritesOnly stored fav rand ri s)) ∧
    (shuffleFavExclusive s →
      shuffleFavExclusive (toggleRevisionMode prog ri2 rand2 fav2 ri3 s)) ∧
    (s.showFavouritesOnly = true → s.shuffle = false → toggleShuffle stored rand s = s) ∧
    (s.isTransitioning = false → s.showFavouritesOnly = false →
      (toggleFavouritesOnly stored fav rand ri s).showFavouritesOnly = true ∧
      (toggleFavouritesOnly stored fav rand ri s).shuffle = false ∧
      (toggleFavouritesOnly stored fav rand ri s).wasShuffleBeforeFavourites = s.shuffle) ∧
    (s.isTransitioning = false → s.showFavouritesOnly = true → s.shuffle = false →
      (toggleFavouritesOnly stored fav rand ri s).showFavouritesOnly = false ∧
      (toggleFavouritesOnly stored fav rand ri s).shuffle = s.wasShuffleBeforeFavourites) := by
  refine ⟨?_, ?_, ?_, ?_, ?_, ?_⟩
  · intro hx
    unfold shuffleFavExclusive at hx ⊢
    rintro ⟨hsh, hfo⟩
    rw [toggleShuffle_shuffle] at hsh
    rw [toggleShuffle_favOnly] at hfo
    by_cases hg : s.showFavouritesOnly = true ∧ s.shuffle = false
    · rw [if_pos hg] at hsh
      rw [hg.2] at hsh
      simp at hsh
    · rw [if_neg hg] at hsh
      have hs0 : s.shuffle = false := by
        cases h : s.shuffle
        · rfl
        · rw [h] at hsh
          simp at hsh
      exact hg ⟨hfo, hs0⟩
  · intro hx
    by_cases ht : s.isTransitioning = true
    · unfold toggleFavouritesOnly
      rw [if_pos ht]
      exact hx
    · rw [Bool.not_eq_true] at ht
      by_cases hf : s.showFavouritesOnly = true
      · have hl := (toggleFavouritesOnly_leaving_flags stored fav rand ri s ht hf).1
        rintro ⟨-, hfo⟩
        rw [hl] at hfo
        simp at hfo
      · rw [Bool.not_eq_true] at hf
        obtain ⟨-, h2, -⟩ := toggleFavouritesOnly_entering_flags stored fav rand ri s ht hf
        rintro ⟨hsh, -⟩
        rw [h2] at hsh
        simp at hsh
  · intro hx
    by_cases hrm : s.revisionMode = true
    · obtain ⟨h1, h2⟩ := toggleRevisionMode_exiting_flags prog ri2 rand2 fav2 ri3 s hrm
      rintro ⟨hsh, hfo⟩
      rw [h1] at hsh
      rw [h2] at hfo
      exact hx ⟨hsh, hfo⟩
    · rw [Bool.not_eq_true] at hrm
      have h1 := toggleRevisionMode_entering_favOnly prog ri2 rand2 fav2 ri3 s hrm
      rintro ⟨-, hfo⟩
      rw [h1] at hfo
      simp at hfo
  · intro h1 h2
    unfold toggleShuffle
    rw [if_pos ⟨h1, h2⟩]
  · intro ht hf
    exact toggleFavouritesOnly_entering_flags stored fav rand ri s ht hf
  · intro ht hf hs
    obtain ⟨h1, h2⟩ := toggleFavouritesOnly_leaving_flags stored fav rand ri s ht hf
    exact ⟨h1, h2 hs⟩

/-- Witness for C10 at a concrete state. -/
theorem claim_C10_witness :
    shuffleFavExclusive
      (toggleShuffle [] [] { deck := [1, 2], shuffle := true }) :=
  (claim_C10_shuffle_fav_exclusive { deck := [1, 2], shuffle := true }
    [] [] [] 0 none 0 [] [] 0).1 (by decide)

/-! ### Transition lock, queueing and FIFO replay -/

theorem ensureShuffleQueue_fst_navQueue (cur : Option Nat) (rand : List Nat)
    (s : AppState) : (ensureShuffleQueue cur rand s).1.navQueue = s.navQueue :=
  (ensureShuffleQueue_fst_frame cur rand s).2.2.2.2.2.2.1

theorem nextCard_deckEmpty (p : NavParams) (s : AppState) (hd : s.deck.length = 0) :
    nextCard p s = s := by
  unfold nextCard nextCardAux
  rw [if_pos hd]

theorem prevCard_deckEmpty (q : Bool) (now : Nat) (s : AppState)
    (hd : s.deck.length = 0) : prevCard q now s = s := by
  unfold prevCard
  rw [if_pos hd]

theorem nextCard_locked (p : NavParams) (s : AppState) (ht : s.isTransitioning = true) :
    (nextCard p s).currentIndex = s.currentIndex ∧
    (nextCard p s).history = s.history ∧
    (nextCard p s).historyIndex = s.historyIndex ∧
    (s.revisionMode = false → p.queued = false → s.deck.length ≠ 0 →
      (nextCard p s).navQueue = s.navQueue ++ [NavAct.next]) ∧
    (s.revisionMode = true → nextCard p s = s) := by
  unfold nextCard nextCardAux
  by_cases hd : s.deck.length = 0
  · rw [if_pos hd]
    refine ⟨rfl, rfl, rfl, fun _ _ hne => absurd hd hne, fun _ => rfl⟩
  · rw [if_neg hd]
    dsimp only
    by_cases hq : p.queued = false ∧ s.revisionMode = false
    · obtain ⟨f1, f2, f3, f4, f5, f6, f7, -⟩ := recordFastNavBurst_frame p.now s
      rw [if_pos hq, if_pos (by rw [f3]; exact ht)]
      rw [if_pos (show (recordFastNavBurst p.now s).revisionMode = false ∧ p.queued = false from
        by rw [f4]; exact ⟨hq.2, hq.1⟩)]
      obtain ⟨-, -, e3, e4, e5, -⟩ := enqueueNavAction_frame NavAct.next (recordFastNavBurst p.now s)
      refine ⟨by rw [e3, f5], by rw [e4, f6], by rw [e5, f7], ?_, ?_⟩
      · intro hrm hpq hne
        unfold enqueueNavAction
        rw [if_neg (by rw [f4, hrm]; exact Bool.false_ne_true)]
        dsimp only
        rw [recordFastNavBurst_navQueue p.now s hq.2]
      · intro hrm
        exact absurd hrm (by rw [hq.2]; exact Bool.false_ne_true)
    · rw [if_neg hq, if_pos ht]
      by_cases hcond : s.revisionMode = false ∧ p.queued = false
      · exact absurd ⟨hcond.2, hcond.1⟩ hq
      · rw [if_neg hcond]
        exact ⟨rfl, rfl, rfl, fun hrm hpq _ => absurd ⟨hrm, hpq⟩ hcond, fun _ => rfl⟩

theorem prevCard_locked (q : Bool) (now : Nat) (s : AppState)
    (ht : s.isTransitioning = true) :
    (prevCard q now s).currentIndex = s.currentIndex ∧
    (prevCard q now s).history = s.history ∧
    (prevCard q now s).historyIndex = s.historyIndex ∧
    (s.revisionMode = false → q = false → s.deck.length ≠ 0 →
      (s.shuffle = false ∨ 0 < s.historyIndex) →
      (prevCard q now s).navQueue = s.navQueue ++ [NavAct.prev]) ∧
    (s.revisionMode = true → prevCard q now s = s) := by
  unfold prevCard
  by_cases hd : s.deck.length = 0
  · rw [if_pos hd]
    exact ⟨rfl, rfl, rfl, fun _ _ hne _ => absurd hd hne, fun _ => rfl⟩
  · rw [if_neg hd]
    dsimp only
    by_cases hc : (if s.shuffle = true then decide ((0 : Int) < s.historyIndex) else true) = false
    · rw [if_pos hc]
      refine ⟨rfl, rfl, rfl, ?_, fun _ => rfl⟩
      intro _ _ _ hnav
      exfalso
      rcases Bool.eq_false_or_eq_true s.shuffle with hsh | hsh
      all_goals rw [hsh] at hc
      all_goals simp at hc
      rcases hnav with hsf | hidx
      · rw [hsf] at hsh
        exact Bool.false_ne_true hsh
      · omega
    · rw [if_neg hc]
      by_cases hq : q = false ∧ s.revisionMode = false
      · obtain ⟨f1, f2, f3, f4, f5, f6, f7, -⟩ := recordFastNavBurst_frame now s
        rw [if_pos hq, if_pos (by rw [f3]; exact ht)]
        rw [if_pos (show (recordFastNavBurst now s).revisionMode = false ∧ q = false from
          by rw [f4]; exact ⟨hq.2, hq.1⟩)]
        obtain ⟨-, -, e3, e4, e5, -⟩ := enqueueNavAction_frame NavAct.prev (recordFastNavBurst now s)
        refine ⟨by rw [e3, f5], by rw [e4, f6], by rw [e5, f7], ?_, ?_⟩
        · intro hrm hqf _ _
          unfold enqueueNavAction
          rw [if_neg (by rw [f4, hrm]; exact Bool.false_ne_true)]
          dsimp only
          rw [recordFastNavBurst_navQueue now s hq.2]
        · intro hrm
          rw [hq.2] at hrm
          exact absurd hrm Bool.false_ne_true
      · rw [if_neg hq, if_pos ht]
        by_cases hcond : s.revisionMode = false ∧ q = false
        · exact absurd ⟨hcond.2, hcond.1⟩ hq
        · rw [if_neg hcond]
          exact ⟨rfl, rfl, rfl, fun hrm hqf _ _ => absurd ⟨hrm, hqf⟩ hcond, fun _ => rfl⟩

theorem pushHistoryBounded_navQueue (c : Nat) (s : AppState) :
    (pushHistoryBounded c s).navQueue = s.navQueue := by
  unfold pushHistoryBounded
  dsimp only
  split <;> rfl

theorem nextCard_queued_navQueue (p : NavParams) (s : AppState) (hq : p.queued = true) :
    (nextCard p s).navQueue = s.navQueue := by
  unfold nextCard nextCardAux
  have hcond : ¬ (p.queued = false ∧ s.revisionMode = false) := by
    rw [hq]
    simp
  have hcond2 : ¬ (s.revisionMode = false ∧ p.queued = false) := by
    rw [hq]
    simp
  by_cases hd : s.deck.length = 0
  · rw [if_pos hd]
  · rw [if_neg hd]
    dsimp only
    rw [if_neg hcond]
    by_cases ht : s.isTransitioning = true
    · rw [if_pos ht, if_neg hcond2]
    · rw [if_neg ht]
      by_cases hsh : s.shuffle = true
      · rw [if_pos hsh]
        by_cases hrep : s.historyIndex < (s.history.length : Int) - 1
        · rw [if_pos hrep]
        · rw [if_neg hrep]
          split
          · simp [ensureShuffleQueue_fst_navQueue, pushHistoryBounded_navQueue]
          · split
            · simp [ensureShuffleQueue_fst_navQueue, pushHistoryBounded_navQueue]
            · simp [ensureShuffleQueue_fst_navQueue]
      · rw [if_neg hsh]

theorem prevCard_queued_navQueue (now : Nat) (s : AppState) :
    (prevCard true now s).navQueue = s.navQueue := by
  unfold prevCard
  by_cases hd : s.deck.length = 0
  · rw [if_pos hd]
  · rw [if_neg hd]
    dsimp only
    by_cases hc : (if s.shuffle = true then decide ((0 : Int) < s.historyIndex) else true) = false
    · rw [if_pos hc]
    · rw [if_neg hc]
      have hcond : ¬ ((true : Bool) = false ∧ s.revisionMode = false) := by simp
      have hcond2 : ¬ (s.revisionMode = false ∧ (true : Bool) = false) := by simp
      rw [if_neg hcond]
      by_cases ht : s.isTransitioning = true
      · rw [if_pos ht, if_neg hcond2]
      · rw [if_neg ht]
        by_cases hsh : s.shuffle = true
        · rw [if_pos hsh]
        · rw [if_neg hsh]

theorem processNavQueue_spec (p : NavParams) (s : AppState) :
    (s.revisionMode = true → processNavQueue p s = { s with navQueue := [] }) ∧
    (s.revisionMode = false → s.navQueue = [] → processNavQueue p s = s) ∧
    (∀ a rest, s.revisionMode = false → s.navQueue = a :: rest →
      s.isTransitioning = true → processNavQueue p s = s) ∧
    (∀ rest, s.revisionMode = false → s.navQueue = NavAct.next :: rest →
      s.isTransitioning = false →
      processNavQueue p s =
        nextCard { queued := true, now := p.now, rand1 := p.rand1, rand2 := p.rand2 }
          { s with navQueue := rest }) ∧
    (∀ rest, s.revisionMode = false → s.navQueue = NavAct.prev :: rest →
      s.isTransitioning = false →
      processNavQueue p s = prevCard true p.now { s with navQueue := rest }) := by
  refine ⟨?_, ?_, ?_, ?_, ?_⟩
  · intro hrm
    unfold processNavQueue
    rw [if_pos hrm]
  · intro hrm hnq
    unfold processNavQueue
    rw [if_neg (by rw [hrm]; exact Bool.false_ne_true)]
    rw [hnq]
  · intro a rest hrm hnq ht
    unfold processNavQueue
    rw [if_neg (by rw [hrm]; exact Bool.false_ne_true)]
    rw [hnq]
    dsimp only
    rw [if_pos ht]
  · intro rest hrm hnq ht
    unfold processNavQueue
    rw [if_neg (by rw [hrm]; exact Bool.false_ne_true)]
    rw [hnq]
    dsimp only
    rw [if_neg (by rw [ht]; exact Bool.false_ne_true)]
  · intro rest hrm hnq ht
    unfold processNavQueue
    rw [if_neg (by rw [hrm]; exact Bool.false_ne_true)]
    rw [hnq]
    dsimp only
    rw [if_neg (by rw [ht]; exact Bool.false_ne_true)]

/-- C7: while the transition lock is set or the deck is empty, `nextCard` and
`prevCard` leave the session position (sequential index, history and history
pointer) unchanged; under the lock outside revision mode a direct call appends
its direction to the back of the single navigation queue (`prevCard` when it
is otherwise enabled), while in revision mode the call is dropped with no
state change at all; `processNavQueue` clears the queue in revision mode, and
otherwise replays exactly the front queued action — one action per completed
transition, in FIFO order — leaving the rest of the queue. -/
theorem claim_C7_transition_lock_queue (s : AppState) (p : NavParams) (q : Bool)
    (now : Nat) :
    ((s.isTransitioning = true ∨ s.deck.length = 0) →
      (nextCard p s).currentIndex = s.currentIndex ∧
      (nextCard p s).history = s.history ∧
      (nextCard p s).historyIndex = s.historyIndex ∧
      (prevCard q now s).currentIndex = s.currentIndex ∧
      (prevCard q now s).history = s.history ∧
      (prevCard q now s).historyIndex = s.historyIndex) ∧
    (s.isTransitioning = true → s.revisionMode = false → s.deck.length ≠ 0 →
      (p.queued = false → (nextCard p s).navQueue = s.navQueue ++ [NavAct.next]) ∧
      (q = false → (s.shuffle = false ∨ 0 < s.historyIndex) →
        (prevCard q now s).navQueue = s.navQueue ++ [NavAct.prev])) ∧
    (s.isTransitioning = true → s.revisionMode = true →
      nextCard p s = s ∧ prevCard q now s = s) ∧
    (s.revisionMode = true → processNavQueue p s = { s with navQueue := [] }) ∧
    (∀ rest, s.revisionMode = false → s.isTransitioning = false →
      (s.navQueue = NavAct.next :: rest →
        processNavQueue p s =
          nextCard { queued := true, now := p.now, rand1 := p.rand1, rand2 := p.rand2 }
            { s with navQueue := rest } ∧
        (processNavQueue p s).navQueue = rest) ∧
      (s.navQueue = NavAct.prev :: rest →
        processNavQueue p s = prevCard true p.now { s with navQueue := rest } ∧
        (processNavQueue p s).navQueue = rest)) := by
  obtain ⟨w1, w2, w3, w4, w5⟩ := processNavQueue_spec p s
  refine ⟨?_, ?_, ?_, w1, ?_⟩
  · rintro (ht | hd)
    · obtain ⟨n1, n2, n3, -, -⟩ := nextCard_locked p s ht
      obtain ⟨v1, v2, v3, -, -⟩ := prevCard_locked q now s ht
      exact ⟨n1, n2, n3, v1, v2, v3⟩
    · rw [nextCard_deckEmpty p s hd, prevCard_deckEmpty q now s hd]
      exact ⟨rfl, rfl, rfl, rfl, rfl, rfl⟩
  · intro ht hrm hne
    obtain ⟨-, -, -, n4, -⟩ := nextCard_locked p s ht
    obtain ⟨-, -, -, v4, -⟩ := prevCard_locked q now s ht
    exact ⟨fun hpq => n4 hrm hpq hne, fun hqf hnav => v4 hrm hqf hne hnav⟩
  · intro ht hrm
    obtain ⟨-, -, -, -, n5⟩ := nextCard_locked p s ht
    obtain ⟨-, -, -, -, v5⟩ := prevCard_locked q now s ht
    exact ⟨n5 hrm, v5 hrm⟩
  · intro rest hrm ht
    constructor
    · intro hnq
      refine ⟨w4 rest hrm hnq ht, ?_⟩
      rw [w4 rest hrm hnq ht, nextCard_queued_navQueue _ _ rfl]
    · intro hnq
      refine ⟨w5 rest hrm hnq ht, ?_⟩
      rw [w5 rest hrm hnq ht, prevCard_queued_navQueue p.now _]

/-- Witness for C7 at a concrete state. -/
theorem claim_C7_witness :
    (nextCard {} { deck := [1, 2], isTransitioning := true }).navQueue =
      ({ deck := [1, 2], isTransitioning := true } : AppState).navQueue ++ [NavAct.next] :=
  ((claim_C7_transition_lock_queue { deck := [1, 2], isTransitioning := true }
    {} false 0).2.1 rfl rfl (by decide)).1 rfl

/-! ### Preservation of the history invariant -/

theorem histInv_congr {s t : AppState} (hh : t.history = s.history)
    (hi : t.historyIndex = s.historyIndex) : histInv t ↔ histInv s := by
  unfold histInv
  rw [hh, hi]

theorem pushHistoryBounded_histInv (c : Nat) (s : AppState) (h : histInv s) :
    histInv (pushHistoryBounded c s) := by
  obtain ⟨h1, h2, h3⟩ := h
  unfold MAX_HISTORY at *
  unfold pushHistoryBounded
  dsimp only
  by_cases hb : MAX_HISTORY < (s.history ++ [c]).length
  · rw [if_pos hb]
    unfold MAX_HISTORY at hb
    rw [List.length_append, List.length_singleton] at hb
    unfold histInv MAX_HISTORY
    dsimp only
    rw [List.length_tail, List.length_append, List.length_singleton]
    refine ⟨by omega, by omega, fun _ => by constructor <;> omega⟩
  · rw [if_neg hb]
    unfold MAX_HISTORY at hb
    rw [List.length_append, List.length_singleton] at hb
    unfold histInv MAX_HISTORY
    dsimp only
    rw [List.length_append, List.length_singleton]
    refine ⟨by omega, by omega, fun _ => ?_⟩
    by_cases he : s.history.length = 0
    · have := h2 he
      constructor <;> omega
    · obtain ⟨g1, g2⟩ := h3 he
      constructor <;> omega

theorem length_takeLastN {α : Type} (n : Nat) (l : List α) :
    (takeLastN n l).length = min n l.length := by
  unfold takeLastN
  rw [List.length_drop]
  omega

theorem resetShuffleForRevision_histInv (pref : Option Nat) (ri : Nat)
    (rand : List Nat) (s : AppState) :
    histInv (resetShuffleForRevision pref ri rand s) := by
  unfold resetShuffleForRevision getCurrentRevisionDeck
  dsimp only
  split
  · unfold histInv MAX_HISTORY
    refine ⟨by simp, by simp, fun hne => absurd rfl hne⟩
  · split
    all_goals (try split)
    all_goals
      (unfold histInv MAX_HISTORY
       refine ⟨by simp, by simp, fun _ => by constructor <;> simp⟩)

theorem ensureShuffleQueue_fst_history (cur : Option Nat) (rand : List Nat)
    (s : AppState) : (ensureShuffleQueue cur rand s).1.history = s.history :=
  (ensureShuffleQueue_fst_frame cur rand s).2.2.2.1

theorem ensureShuffleQueue_fst_historyIndex (cur : Option Nat) (rand : List Nat)
    (s : AppState) : (ensureShuffleQueue cur rand s).1.historyIndex = s.historyIndex :=
  (ensureShuffleQueue_fst_frame cur rand s).2.2.2.2.1

theorem nextCard_histInv (p : NavParams) (s0 : AppState) (h : histInv s0) :
    histInv (nextCard p s0) := by
  unfold nextCard nextCardAux
  by_cases hd : s0.deck.length = 0
  · rw [if_pos hd]
    exact h
  · rw [if_neg hd]
    dsimp only
    have hinvt : histInv
        (if p.queued = false ∧ s0.revisionMode = false then recordFastNavBurst p.now s0
         else s0) := by
      split
      · exact (histInv_congr (recordFastNavBurst_frame p.now s0).2.2.2.2.2.1
          (recordFastNavBurst_frame p.now s0).2.2.2.2.2.2.1).mpr h
      · exact h
    generalize hS : (if p.queued = false ∧ s0.revisionMode = false then
      recordFastNavBurst p.now s0 else s0) = t at hinvt ⊢
    by_cases ht : t.isTransitioning = true
    · rw [if_pos ht]
      split
      · exact (histInv_congr (enqueueNavAction_frame NavAct.next t).2.2.2.1
          (enqueueNavAction_frame NavAct.next t).2.2.2.2.1).mpr hinvt
      · exact hinvt
    · rw [if_neg ht]
      by_cases hsh : t.shuffle = true
      · rw [if_pos hsh]
        by_cases hrep : t.historyIndex < (t.history.length : Int) - 1
        · rw [if_pos hrep]
          unfold histInv at hinvt ⊢
          dsimp only
          obtain ⟨h1, h2, h3⟩ := hinvt
          refine ⟨h1, ?_, ?_⟩
          · intro he
            have h2' := h2 he
            omega
          · intro hne
            by_cases he : t.history.length = 0
            · exact absurd he hne
            · obtain ⟨a, b⟩ := h3 he
              exact ⟨by omega, by omega⟩
        · rw [if_neg hrep]
          split
          · dsimp only
            refine (histInv_congr (ensureShuffleQueue_fst_history _ _ _)
              (ensureShuffleQueue_fst_historyIndex _ _ _)).mpr ?_
            refine (histInv_congr rfl rfl).mpr ?_
            refine pushHistoryBounded_histInv _ _ ?_
            refine (histInv_congr rfl rfl).mpr ?_
            exact (histInv_congr (ensureShuffleQueue_fst_history _ _ _)
              (ensureShuffleQueue_fst_historyIndex _ _ _)).mpr hinvt
          · split
            · dsimp only
              refine (histInv_congr (ensureShuffleQueue_fst_history _ _ _)
                (ensureShuffleQueue_fst_historyIndex _ _ _)).mpr ?_
              refine (histInv_congr rfl rfl).mpr ?_
              refine pushHistoryBounded_histInv _ _ ?_
              exact (histInv_congr (ensureShuffleQueue_fst_history _ _ _)
                (ensureShuffleQueue_fst_historyIndex _ _ _)).mpr hinvt
            · dsimp only
              exact (histInv_congr (ensureShuffleQueue_fst_history _ _ _)
                (ensureShuffleQueue_fst_historyIndex _ _ _)).mpr hinvt
      · rw [if_neg hsh]
        exact (histInv_congr rfl rfl).mpr hinvt

theorem prevCard_histInv (q : Bool) (now : Nat) (s0 : AppState) (h : histInv s0) :
    histInv (prevCard q now s0) := by
  unfold prevCard
  by_cases hd : s0.deck.length = 0
  · rw [if_pos hd]
    exact h
  · rw [if_neg hd]
    dsimp only
    by_cases hc : (if s0.shuffle = true then decide ((0 : Int) < s0.historyIndex)
        else true) = false
    · rw [if_pos hc]
      exact h
    · rw [if_neg hc]
      have hinvt : histInv
          (if q = false ∧ s0.revisionMode = false then recordFastNavBurst now s0
           else s0) := by
        split
        · exact (histInv_congr (recordFastNavBurst_frame now s0).2.2.2.2.2.1
            (recordFastNavBurst_frame now s0).2.2.2.2.2.2.1).mpr h
        · exact h
      have hidx0 : s0.shuffle = true → (0 : Int) < s0.historyIndex := by
        intro hsh
        rw [hsh] at hc
        simp at hc
        omega
      have hhists : (if q = false ∧ s0.revisionMode = false then recordFastNavBurst now s0
          else s0).history = s0.history := by
        split
        · exact (recordFastNavBurst_frame now s0).2.2.2.2.2.1
        · rfl
      have hidxs : (if q = false ∧ s0.revisionMode = false then recordFastNavBurst now s0
          else s0).historyIndex = s0.historyIndex := by
        split
        · exact (recordFastNavBurst_frame now s0).2.2.2.2.2.2.1
        · rfl
      have hshs : (if q = false ∧ s0.revisionMode = false then recordFastNavBurst now s0
          else s0).shuffle = s0.shuffle := by
        split
        · exact (recordFastNavBurst_frame now s0).2.1
        · rfl
      generalize hS : (if q = false ∧ s0.revisionMode = false then
        recordFastNavBurst now s0 else s0) = t at hinvt hhists hidxs hshs ⊢
      by_cases ht : t.isTransitioning = true
      · rw [if_pos ht]
        split
        · exact (histInv_congr (enqueueNavAction_frame NavAct.prev t).2.2.2.1
            (enqueueNavAction_frame NavAct.prev t).2.2.2.2.1).mpr hinvt
        · exact hinvt
      · rw [if_neg ht]
        by_cases hsh : t.shuffle = true
        · rw [if_pos hsh]
          have hpos : (0 : Int) < s0.historyIndex := hidx0 (by rw [← hshs]; exact hsh)
          unfold histInv at hinvt ⊢
          dsimp only
          obtain ⟨h1, h2, h3⟩ := hinvt
          rw [hhists, hidxs] at *
          refine ⟨h1, ?_, ?_⟩
          · intro he
            have h2' := h2 he
            omega
          · intro hne
            obtain ⟨a, b⟩ := h3 hne
            exact ⟨by omega, by omega⟩
        · rw [if_neg hsh]
          exact (histInv_congr rfl rfl).mpr hinvt

theorem handleRoundComplete_histInv (ri : Nat) (rand : List Nat) (s : AppState)
    (h : histInv s) : histInv (handleRoundComplete ri rand s).1 := by
  unfold handleRoundComplete
  split
  · exact h
  · unfold startNewRevisionRound
    dsimp only
    exact resetShuffleForRevision_histInv none ri rand _

theorem nextRevisionCard_histInv (pick ri : Nat) (rand : List Nat) (s : AppState)
    (h : histInv s) : histInv (nextRevisionCard pick ri rand s).1 := by
  unfold nextRevisionCard
  by_cases hd : s.deck.length = 0
  · rw [if_pos hd]
    exact h
  · rw [if_neg hd]
    dsimp only
    split
    · exact handleRoundComplete_histInv ri rand s h
    · dsimp only
      refine (histInv_congr rfl rfl).mpr ?_
      exact pushHistoryBounded_histInv _ _ h

theorem rebuildDeckElseShuffle_histInv (newDeck : List Nat) (ri : Nat) (s : AppState)
    (h : histInv s) : histInv (rebuildDeckElseShuffle newDeck ri s) := by
  obtain ⟨h1, h2, h3⟩ := h
  unfold rebuildDeckElseShuffle
  dsimp only
  split
  · unfold histInv MAX_HISTORY
    refine ⟨by simp, by simp, fun _ => by constructor <;> simp⟩
  · rename_i hcond
    unfold histInv MAX_HISTORY at *
    dsimp only
    have hfl : (s.history.filter (fun c => c ∈ newDeck)).length ≤ s.history.length :=
      List.length_filter_le _ _
    refine ⟨by omega, ?_, ?_⟩
    · intro he
      rw [he]
      have hge : (-1 : Int) ≤ s.historyIndex := by
        by_cases hh : s.history.length = 0
        · rw [h2 hh]
        · exact le_of_lt (lt_of_lt_of_le (by omega) (h3 hh).1)
      simp only [Nat.cast_zero]
      omega
    · intro hne
      have hh : s.history.length ≠ 0 := by
        intro h0
        rw [List.eq_nil_of_length_eq_zero h0] at hne
        simp at hne
      obtain ⟨a, b⟩ := h3 hh
      have hfne : (s.history.filter (fun c => c ∈ newDeck)).length ≠ 0 := hne
      constructor
      · have : (0 : Int) ≤ min s.historyIndex ((s.history.filter
          (fun c => c ∈ newDeck)).length - 1) := by
          omega
        exact this
      · omega

theorem rebuildDeck_histInv (keep : Option Nat) (fav : List Nat) (ri : Nat)
    (s : AppState) (h : histInv s) : histInv (rebuildDeck keep fav ri s) := by
  unfold rebuildDeck
  dsimp only
  by_cases hsh : s.shuffle = true
  · rw [if_pos hsh]
    refine (histInv_congr rfl rfl).mpr ?_
    rcases keep with _ | k
    · exact rebuildDeckElseShuffle_histInv _ ri s h
    · dsimp only
      split
      · rename_i hk
        by_cases hkh : k ∈ s.history
        · rw [if_pos hkh]
          unfold histInv jsIndexOf at *
          dsimp only
          obtain ⟨h1, h2, h3⟩ := h
          rw [if_pos hkh]
          have hlt : s.history.indexOf k < s.history.length :=
            List.indexOf_lt_length.mpr hkh
          refine ⟨h1, ?_, ?_⟩
          · intro he
            exfalso
            rw [List.eq_nil_of_length_eq_zero he] at hkh
            simp at hkh
          · intro hne
            constructor
            · split <;> omega
            · split <;> omega
        · rw [if_neg hkh]
          unfold histInv jsIndexOf MAX_HISTORY
          dsimp only
          refine ⟨by simp, by simp, fun _ => ?_⟩
          constructor
          · split <;> simp
          · split <;> simp
      · exact rebuildDeckElseShuffle_histInv _ ri s h
  · rw [if_neg hsh]
    rcases keep with _ | k
    · exact (histInv_congr rfl rfl).mpr h
    · dsimp only
      split
      · exact (histInv_congr rfl rfl).mpr h
      · exact (histInv_congr rfl rfl).mpr h

theorem toggleShuffle_histInv (stored rand : List Nat) (s : AppState) (h : histInv s) :
    histInv (toggleShuffle stored rand s) := by
  unfold toggleShuffle
  split
  · exact h
  · dsimp only
    refine (histInv_congr (ensureShuffleQueue_fst_history _ _ _)
      (ensureShuffleQueue_fst_historyIndex _ _ _)).mpr ?_
    split
    · split
      · rename_i hcond
        refine (histInv_congr rfl rfl).mpr ?_
        unfold histInv MAX_HISTORY
        dsimp only
        have hlen : (loadHistoryModel stored { s with shuffle := !s.shuffle }).length ≤ 5 := by
          unfold loadHistoryModel
          rw [length_takeLastN]
          unfold MAX_HISTORY
          omega
        refine ⟨hlen, ?_, ?_⟩
        · intro he
          exact absurd he hcond.1
        · intro hne
          constructor <;> omega
      · split
        · split
          all_goals
            (refine (histInv_congr rfl rfl).mpr ?_
             unfold histInv MAX_HISTORY
             refine ⟨by simp, by simp, fun hne => ?_⟩)
          · exact absurd rfl hne
          · constructor <;> simp
        · refine (histInv_congr rfl rfl).mpr ?_
          unfold histInv MAX_HISTORY
          refine ⟨by simp, by simp, fun hne => absurd rfl hne⟩
    · split
      · split
        · exact (histInv_congr rfl rfl).mpr h
        · exact (histInv_congr rfl rfl).mpr h
      · exact (histInv_congr rfl rfl).mpr h

/-- C5: each history-mutating operation — `nextCard`, `prevCard`,
`nextRevisionCard`, `rebuildDeck`, `toggleShuffle` and
`resetShuffleForRevision` — preserves the history invariant: the history never
exceeds `MAX_HISTORY` entries, and the pointer is a valid index into the
history whenever it is non-empty and `-1` when it is empty
(`resetShuffleForRevision` establishes the invariant unconditionally). -/
theorem claim_C5_history_bounds (s : AppState) (p : NavParams) (q : Bool) (now : Nat)
    (pick ri : Nat) (rand : List Nat) (keep : Option Nat) (fav stored : List Nat)
    (pref : Option Nat) (h : histInv s) :
    histInv (nextCard p s) ∧ histInv (prevCard q now s) ∧
    histInv (nextRevisionCard pick ri rand s).1 ∧
    histInv (rebuildDeck keep fav ri s) ∧
    histInv (toggleShuffle stored rand s) ∧
    histInv (resetShuffleForRevision pref ri rand s) :=
  ⟨nextCard_histInv p s h, prevCard_histInv q now s h,
   nextRevisionCard_histInv pick ri rand s h, rebuildDeck_histInv keep fav ri s h,
   toggleShuffle_histInv stored rand s h, resetShuffleForRevision_histInv pref ri rand s⟩

/-- Witness for C5 at a concrete state. -/
theorem claim_C5_witness :
    histInv (nextCard ({} : NavParams) { deck := [1, 2, 3], shuffle := true, history := [2], historyIndex := 0, unvisited := [1, 3] }) :=
  (claim_C5_history_bounds { deck := [1, 2, 3], shuffle := true, history := [2], historyIndex := 0, unvisited := [1, 3] } ({} : NavParams) false 0 0 0 [] none [] [] none (by decide)).1

/-! ### Properties of the deck computed by `rebuildDeck` -/

theorem asPositiveInt_pos {n x : Nat} (h : asPositiveInt n = some x) : 0 < x := by
  unfold asPositiveInt at h
  split at h
  · cases h
    assumption
  · cases h

theorem perCardNumbers_props {m? : Option Manifest} {nums : List Nat}
    (h : perCardNumbers m? = some nums) : nums.Nodup ∧ ∀ x ∈ nums, 0 < x := by
  unfold perCardNumbers at h
  rcases m? with _ | m
  · cases h
  · dsimp only at h
    rcases hpc : m.per_card with _ | pc
    · rw [hpc] at h
      cases h
    · rw [hpc] at h
      dsimp only at h
      split at h
      · cases h
        constructor
        · exact (List.perm_insertionSort _ _).nodup_iff.mpr (newSet_nodup _)
        · intro x hx
          rw [List.mem_insertionSort, mem_newSet] at hx
          obtain ⟨a, -, ha⟩ := List.mem_filterMap.mp hx
          exact asPositiveInt_pos ha
      · cases h

theorem baseDeck_props (m? : Option Manifest) (total : Nat) :
    (baseDeck m? total).Nodup ∧ ∀ x ∈ baseDeck m? total, 0 < x := by
  unfold baseDeck
  rcases hpc : perCardNumbers m? with _ | nums
  · constructor
    · exact List.nodup_range' 1 total
    · intro x hx
      rw [List.mem_range'_1] at hx
      omega
  · obtain ⟨hn, hp⟩ := perCardNumbers_props hpc
    dsimp only
    split
    · constructor
      · rw [List.nodup_append]
        refine ⟨hn, (List.nodup_range' 1 total).filter _, ?_⟩
        intro x hx hy
        rw [List.mem_filter] at hy
        have := hy.2
        simp at this
        exact this hx
      · intro x hx
        rw [List.mem_append] at hx
        rcases hx with hx | hx
        · exact hp x hx
        · rw [List.mem_filter, List.mem_range'_1] at hx
          omega
    · exact ⟨hn, hp⟩

theorem applyManifestFilters_props (m? : Option Manifest) (tf df : String)
    (d0 : List Nat) (hn : d0.Nodup) (hp : ∀ x ∈ d0, 0 < x) :
    (applyManifestFilters m? tf df d0).Nodup ∧
    ∀ x ∈ applyManifestFilters m? tf df d0, 0 < x := by
  unfold applyManifestFilters
  rcases m? with _ | m
  · exact ⟨hn, hp⟩
  · dsimp only
    split
    all_goals (try split)
    all_goals (try split)
    all_goals (try split)
    all_goals (try split)
    all_goals
      (constructor
       · first
          | exact List.nodup_nil
          | exact hn
          | exact hn.filter _
          | exact (hn.filter _).filter _
          | exact ((hn.filter _).filter _).filter _
       · intro x hx
         first
          | exact hp x hx
          | cases hx
          | (simp only [List.mem_filter] at hx
             first
              | exact hp x hx.1
              | exact hp x hx.1.1
              | exact hp x hx.1.1.1))

theorem computeDeck_props (m? : Option Manifest) (total : Nat) (tf df : String)
    (favOnly : Bool) (fav : List Nat) :
    (computeDeck m? total tf df favOnly fav).Sorted (· ≤ ·) ∧
    (computeDeck m? total tf df favOnly fav).Nodup ∧
    ∀ x ∈ computeDeck m? total tf df favOnly fav, 0 < x := by
  obtain ⟨h0n, h0p⟩ := baseDeck_props m? total
  obtain ⟨h1n, h1p⟩ := applyManifestFilters_props m? tf df _ h0n h0p
  unfold computeDeck
  dsimp only
  have h2 : (if favOnly = true then
        (applyManifestFilters m? tf df (baseDeck m? total)).filter (fun n => n ∈ fav)
      else applyManifestFilters m? tf df (baseDeck m? total)).Nodup ∧
      ∀ x ∈ (if favOnly = true then
        (applyManifestFilters m? tf df (baseDeck m? total)).filter (fun n => n ∈ fav)
      else applyManifestFilters m? tf df (baseDeck m? total)), 0 < x := by
    split
    · constructor
      · exact h1n.filter _
      · intro x hx
        rw [List.mem_filter] at hx
        exact h1p x hx.1
    · exact ⟨h1n, h1p⟩
  refine ⟨List.sorted_insertionSort _ _, ?_, ?_⟩
  · exact (List.perm_insertionSort _ _).nodup_iff.mpr h2.1
  · intro x hx
    rw [List.mem_insertionSort] at hx
    exact h2.2 x hx

/-- C2 counterexample: starting from the sorted round-1 deck `[1, 2, 3]` in
revision mode and marking cards `3`, `2`, `1` not-OK in that visit order, the
round completes and `startNewRevisionRound` installs the deck `[3, 2, 1]` —
the incorrect set in insertion order — which is not sorted ascending. -/
theorem claim_C2_counterexample :
    (markCardPasOK 0 0 [] (markCardPasOK 0 0 [] (markCardPasOK 1 0 [] { total := 3, deck := [1, 2, 3], history := [3], historyIndex := 0, unvisited := [1, 2], shuffle := true, revisionMode := true }).1).1).1.deck = [3, 2, 1] ∧
    ¬ List.Sorted (· ≤ ·)
      (markCardPasOK 0 0 [] (markCardPasOK 0 0 [] (markCardPasOK 1 0 [] { total := 3, deck := [1, 2, 3], history := [3], historyIndex := 0, unvisited := [1, 2], shuffle := true, revisionMode := true }).1).1).1.deck := by
  constructor
  · rfl
  · decide

/-- C2 (amended): every deck installed by `rebuildDeck` is a duplicate-free
ascending-sorted sequence of positive card numbers; the decks installed when a
revision round narrows to the incorrect set (`startNewRevisionRound`) or when
revision mode is entered with persisted round > 1 progress
(`toggleRevisionMode`) are exactly the incorrect set in insertion order —
duplicate-free and positive whenever that set is, but not necessarily sorted
ascending. -/
theorem claim_C2_amended_deck_invariants (s : AppState) (keep : Option Nat)
    (fav : List Nat) (ri : Nat) (rand : List Nat) (p : RevProgress) (ri2 : Nat)
    (rand2 : List Nat) (fav2 : List Nat) (ri3 : Nat) :
    ((rebuildDeck keep fav ri s).deck.Sorted (· ≤ ·) ∧
     (rebuildDeck keep fav ri s).deck.Nodup ∧
     ∀ x ∈ (rebuildDeck keep fav ri s).deck, 0 < x) ∧
    (s.revisionIncorrect ≠ [] →
      (startNewRevisionRound ri rand s).deck = s.revisionIncorrect ∧
      (s.revisionIncorrect.Nodup → (startNewRevisionRound ri rand s).deck.Nodup) ∧
      ((∀ x ∈ s.revisionIncorrect, 0 < x) →
        ∀ x ∈ (startNewRevisionRound ri rand s).deck, 0 < x)) ∧
    (s.revisionMode = false → 1 < p.round → p.incorrect ≠ [] →
      (toggleRevisionMode (some p) ri2 rand2 fav2 ri3 s).deck = p.incorrect ∧
      (p.incorrect.Nodup →
        (toggleRevisionMode (some p) ri2 rand2 fav2 ri3 s).deck.Nodup) ∧
      ((∀ x ∈ p.incorrect, 0 < x) →
        ∀ x ∈ (toggleRevisionMode (some p) ri2 rand2 fav2 ri3 s).deck, 0 < x)) := by
  refine ⟨?_, ?_, ?_⟩
  · rw [rebuildDeck_deck]
    exact computeDeck_props _ _ _ _ _ _
  · intro hne
    have hdk := (startNewRevisionRound_fields ri rand s).2.2.2.2
    rw [if_pos (by simpa using fun h => hne (List.eq_nil_of_length_eq_zero h))] at hdk
    exact ⟨hdk, fun hnd => by rw [hdk]; exact hnd,
      fun hp x hx => by rw [hdk] at hx; exact hp x hx⟩
  · intro hrm hround hne
    have hcc : 1 < p.round ∧ p.incorrect.length ≠ 0 :=
      ⟨hround, by simpa using fun h => hne (List.eq_nil_of_length_eq_zero h)⟩
    have hflag : ∀ t : AppState,
        (if t.showFavouritesOnly then { t with showFavouritesOnly := false }
         else t).deck = t.deck := by
      intro t
      split <;> rfl
    have hdk : (toggleRevisionMode (some p) ri2 rand2 fav2 ri3 s).deck = p.incorrect := by
      unfold toggleRevisionMode resetFastNavState
      dsimp only
      rw [hrm]
      rw [if_pos (by simp)]
      rw [if_pos hcc]
      rw [hflag]
      rw [resetShuffleForRevision_deck]
      split <;> rfl
    exact ⟨hdk, fun hnd => by rw [hdk]; exact hnd,
      fun hp x hx => by rw [hdk] at hx; exact hp x hx⟩

/-- Witness for C2 (amended) at a concrete state. -/
theorem claim_C2_witness :
    (startNewRevisionRound 0 [] { deck := [1, 2, 3], revisionIncorrect := [3, 2], shuffle := true, revisionMode := true }).deck = [3, 2] :=
  ((claim_C2_amended_deck_invariants { deck := [1, 2, 3], revisionIncorrect := [3, 2], shuffle := true, revisionMode := true } none [] 0 [] {} 0 [] [] 0).2.1 (by decide)).1

/-! ### Round completion in revision mode -/

theorem checkRoundComplete_iff (s1 : AppState) :
    checkRoundComplete s1 = true ↔ s1.deck.length ≤ s1.revisionSeen.length := by
  unfold checkRoundComplete getCurrentRevisionDeck
  simp

theorem nextRevisionCard_snd_none (pick ri : Nat) (rand : List Nat) (s1 : AppState)
    (hd : s1.deck.length ≠ 0) (hndd : s1.deck.Nodup)
    (hchk : checkRoundComplete s1 = false) :
    (nextRevisionCard pick ri rand s1).2 = none := by
  unfold nextRevisionCard
  rw [if_neg hd]
  dsimp only
  split
  · rename_i hlen
    exfalso
    have hnil : s1.deck.filter (fun c => ¬ c ∈ s1.revisionSeen) = [] :=
      List.eq_nil_of_length_eq_zero hlen
    have hsub2 : ∀ x ∈ s1.deck, x ∈ s1.revisionSeen := by
      intro x hx
      by_contra hmem
      have hxf : x ∈ s1.deck.filter (fun c => ¬ c ∈ s1.revisionSeen) := by
        rw [List.mem_filter]
        exact ⟨hx, by simpa using hmem⟩
      rw [hnil] at hxf
      cases hxf
    have hle := (hndd.subperm fun x hx => hsub2 x hx).length_le
    have htrue : checkRoundComplete s1 = true := (checkRoundComplete_iff s1).mpr hle
    rw [hchk] at htrue
    cases htrue
  · rfl

theorem markTail_isSome_iff (pick ri : Nat) (rand : List Nat) (s1 : AppState)
    (hd : s1.deck.length ≠ 0) (hsub : ∀ x ∈ s1.revisionSeen, x ∈ s1.deck)
    (hnds : s1.revisionSeen.Nodup) (hndd : s1.deck.Nodup) :
    ((if checkRoundComplete s1 = true then
        ((handleRoundComplete ri rand s1).1, some (handleRoundComplete ri rand s1).2)
      else nextRevisionCard pick ri rand s1) :
        AppState × Option RoundResult).2.isSome = true ↔
    s1.revisionSeen.length = s1.deck.length := by
  have hle : s1.revisionSeen.length ≤ s1.deck.length :=
    (hnds.subperm fun x hx => hsub x hx).length_le
  by_cases hchk : checkRoundComplete s1 = true
  · rw [if_pos hchk]
    have hge := (checkRoundComplete_iff s1).mp hchk
    simp only [Option.isSome_some]
    constructor
    · intro _
      omega
    · intro _
      trivial
  · rw [if_neg hchk]
    have hnone := nextRevisionCard_snd_none pick ri rand s1 hd hndd
      (by rw [Bool.not_eq_true] at hchk
          exact hchk)
    rw [hnone]
    simp only [Option.isSome_none]
    constructor
    · intro hfalse
      cases hfalse
    · intro heq
      exfalso
      exact hchk ((checkRoundComplete_iff s1).mpr (by omega))

theorem markTail_outcome (pick ri : Nat) (rand : List Nat) (s1 : AppState)
    (hd : s1.deck.length ≠ 0) (hndd : s1.deck.Nodup)
    (hsome : ((if checkRoundComplete s1 = true then
        ((handleRoundComplete ri rand s1).1, some (handleRoundComplete ri rand s1).2)
      else nextRevisionCard pick ri rand s1) :
        AppState × Option RoundResult).2.isSome = true) :
    (s1.revisionIncorrect = [] →
      ((if checkRoundComplete s1 = true then
        ((handleRoundComplete ri rand s1).1, some (handleRoundComplete ri rand s1).2)
      else nextRevisionCard pick ri rand s1) :
        AppState × Option RoundResult).2 = some RoundResult.complete ∧
      ((if checkRoundComplete s1 = true then
        ((handleRoundComplete ri rand s1).1, some (handleRoundComplete ri rand s1).2)
      else nextRevisionCard pick ri rand s1)).1.revisionRound = s1.revisionRound) ∧
    (s1.revisionIncorrect ≠ [] →
      ((if checkRoundComplete s1 = true then
        ((handleRoundComplete ri rand s1).1, some (handleRoundComplete ri rand s1).2)
      else nextRevisionCard pick ri rand s1) :
        AppState × Option RoundResult).2 = some RoundResult.newRound ∧
      ((if checkRoundComplete s1 = true then
        ((handleRoundComplete ri rand s1).1, some (handleRoundComplete ri rand s1).2)
      else nextRevisionCard pick ri rand s1)).1.revisionRound = s1.revisionRound + 1 ∧
      ((if checkRoundComplete s1 = true then
        ((handleRoundComplete ri rand s1).1, some (handleRoundComplete ri rand s1).2)
      else nextRevisionCard pick ri rand s1)).1.revisionSeen = []) := by
  by_cases hchk : checkRoundComplete s1 = true
  · rw [if_pos hchk]
    dsimp only
    unfold handleRoundComplete
    constructor
    · intro hinc
      rw [if_pos (by rw [hinc]; rfl)]
      exact ⟨rfl, rfl⟩
    · intro hinc
      rw [if_neg (by simpa using fun hl => hinc (List.eq_nil_of_length_eq_zero hl))]
      obtain ⟨-, -, g3, g4, -⟩ := startNewRevisionRound_fields ri rand s1
      exact ⟨rfl, g4, g3⟩
  · exfalso
    rw [if_neg hchk] at hsome
    have hnone := nextRevisionCard_snd_none pick ri rand s1 hd hndd
      (by rw [Bool.not_eq_true] at hchk
          exact hchk)
    rw [hnone] at hsome
    cases hsome

theorem markCardOK_eq_tail (pick ri : Nat) (rand : List Nat) (s : AppState) (c : Nat)
    (h : getCurrentCard s = some c) (h0 : c ≠ 0) :
    markCardOK pick ri rand s =
      (if checkRoundComplete (markOKSets c s) = true then
        ((handleRoundComplete ri rand (markOKSets c s)).1,
         some (handleRoundComplete ri rand (markOKSets c s)).2)
      else nextRevisionCard pick ri rand (markOKSets c s)) := by
  unfold markCardOK
  rw [h]
  dsimp only
  rw [if_neg h0]

theorem markCardPasOK_eq_tail (pick ri : Nat) (rand : List Nat) (s : AppState) (c : Nat)
    (h : getCurrentCard s = some c) (h0 : c ≠ 0) :
    markCardPasOK pick ri rand s =
      (if checkRoundComplete (markPasOKSets c s) = true then
        ((handleRoundComplete ri rand (markPasOKSets c s)).1,
         some (handleRoundComplete ri rand (markPasOKSets c s)).2)
      else nextRevisionCard pick ri rand (markPasOKSets c s)) := by
  unfold markCardPasOK
  rw [h]
  dsimp only
  rw [if_neg h0]

/-- C1: in revision mode, a mark operation (`markCardOK` or `markCardPasOK`)
on the current card `c` triggers round-completion handling exactly when the
updated seen set has as many cards as the current round deck; when triggered,
an empty incorrect set yields the terminal completion outcome (round counter
unchanged), and otherwise the round counter increments by exactly one and the
seen set resets to empty. Concretely, for the round-1 deck `[1, 2, 3]`
(current card `1`), marking `1` OK, `2` not-OK and `3` OK yields round
counter `2`, round-2 deck `[2]`, and an empty seen set. -/
theorem claim_C1_round_completion (s : AppState) (pick ri : Nat) (rand : List Nat)
    (c : Nat) (h : getCurrentCard s = some c) (h0 : c ≠ 0) (hcd : c ∈ s.deck)
    (hsub : ∀ x ∈ s.revisionSeen, x ∈ s.deck) (hnds : s.revisionSeen.Nodup)
    (hndd : s.deck.Nodup) :
    ((markCardOK pick ri rand s).2.isSome = true ↔
      (jsAdd s.revisionSeen c).length = s.deck.length) ∧
    ((markCardPasOK pick ri rand s).2.isSome = true ↔
      (jsAdd s.revisionSeen c).length = s.deck.length) ∧
    ((markCardOK pick ri rand s).2.isSome = true →
      (jsDel s.revisionIncorrect c = [] →
        (markCardOK pick ri rand s).2 = some RoundResult.complete ∧
        (markCardOK pick ri rand s).1.revisionRound = s.revisionRound) ∧
      (jsDel s.revisionIncorrect c ≠ [] →
        (markCardOK pick ri rand s).2 = some RoundResult.newRound ∧
        (markCardOK pick ri rand s).1.revisionRound = s.revisionRound + 1 ∧
        (markCardOK pick ri rand s).1.revisionSeen = [])) ∧
    ((markCardPasOK pick ri rand s).2.isSome = true →
      (markCardPasOK pick ri rand s).2 = some RoundResult.newRound ∧
      (markCardPasOK pick ri rand s).1.revisionRound = s.revisionRound + 1 ∧
      (markCardPasOK pick ri rand s).1.revisionSeen = []) ∧
    ((markCardOK 0 0 [] (markCardPasOK 0 0 [] (markCardOK 0 0 [] { total := 3, deck := [1, 2, 3], history := [1], historyIndex := 0, unvisited := [2, 3], shuffle := true, revisionMode := true }).1).1).1.revisionRound = 2 ∧
     (markCardOK 0 0 [] (markCardPasOK 0 0 [] (markCardOK 0 0 [] { total := 3, deck := [1, 2, 3], history := [1], historyIndex := 0, unvisited := [2, 3], shuffle := true, revisionMode := true }).1).1).1.deck = [2] ∧
     (markCardOK 0 0 [] (markCardPasOK 0 0 [] (markCardOK 0 0 [] { total := 3, deck := [1, 2, 3], history := [1], historyIndex := 0, unvisited := [2, 3], shuffle := true, revisionMode := true }).1).1).1.revisionSeen = []) := by
  have hd : s.deck.length ≠ 0 := by
    intro hlen
    rw [List.eq_nil_of_length_eq_zero hlen] at hcd
    cases hcd
  have hsubOK : ∀ x ∈ (markOKSets c s).revisionSeen, x ∈ (markOKSets c s).deck := by
    intro x hx
    rcases mem_jsAdd.mp hx with hx | rfl
    · exact hsub x hx
    · exact hcd
  have hsubPas : ∀ x ∈ (markPasOKSets c s).revisionSeen, x ∈ (markPasOKSets c s).deck := by
    intro x hx
    rcases mem_jsAdd.mp hx with hx | rfl
    · exact hsub x hx
    · exact hcd
  have hiffOK := markTail_isSome_iff pick ri rand (markOKSets c s) hd hsubOK
    (jsAdd_nodup hnds c) hndd
  have hiffPas := markTail_isSome_iff pick ri rand (markPasOKSets c s) hd hsubPas
    (jsAdd_nodup hnds c) hndd
  rw [markCardOK_eq_tail pick ri rand s c h h0, markCardPasOK_eq_tail pick ri rand s c h h0]
  refine ⟨hiffOK, hiffPas, ?_, ?_, by decide, by decide, by decide⟩
  · intro hsome
    exact markTail_outcome pick ri rand (markOKSets c s) hd hndd hsome
  · intro hsome
    have hout := markTail_outcome pick ri rand (markPasOKSets c s) hd hndd hsome
    refine (hout.2 ?_).imp id id
    intro hnil
    have : c ∈ (markPasOKSets c s).revisionIncorrect := mem_jsAdd.mpr (Or.inr rfl)
    rw [hnil] at this
    cases this

/-- Witness for C1 at a concrete state. -/
theorem claim_C1_witness :
    (markCardOK 0 0 [] { total := 2, deck := [1, 2], history := [1], historyIndex := 0, unvisited := [2], shuffle := true, revisionMode := true }).2.isSome = true ↔
      (jsAdd ({ total := 2, deck := [1, 2], history := [1], historyIndex := 0, unvisited := [2], shuffle := true, revisionMode := true } : AppState).revisionSeen 1).length = 2 :=
  (claim_C1_round_completion { total := 2, deck := [1, 2], history := [1], historyIndex := 0, unvisited := [2], shuffle := true, revisionMode := true } 0 0 [] 1 (by decide) (by decide) (by decide) (by decide) (by decide) (by decide)).1

/-! ### Asset resolver: format candidates and cache-bust retry -/

theorem tryCandidates_trace_head (oracle : String → Bool) (b side : String) (n : Nat)
    (version : Option String) (pts cb : String) (ext : String) (rest : List String)
    (lastTried : String) :
    (tryCandidates oracle b side n version false pts cb (ext :: rest) lastTried).2.head? =
      some (buildImageURL b side n version ext) := by
  unfold tryCandidates
  dsimp only
  rw [if_neg (show ¬(false = true) by simp)]
  split_ifs <;> rfl

theorem tryCandidates_trace_get0 (oracle : String → Bool) (b side : String) (n : Nat)
    (version : Option String) (pts cb : String) (ext : String) (rest : List String)
    (lastTried : String) :
    (tryCandidates oracle b side n version false pts cb (ext :: rest) lastTried).2.get? 0 =
      some (buildImageURL b side n version ext) := by
  unfold tryCandidates
  dsimp only
  rw [if_neg (show ¬(false = true) by simp)]
  split_ifs <;> rfl

theorem tryCandidates_cons_fail (oracle : String → Bool) (b side : String) (n : Nat)
    (version : Option String) (pts cb : String) (ext : String) (rest : List String)
    (lastTried : String)
    (h1 : oracle (buildImageURL b side n version ext) = false)
    (h2 : oracle (addCacheBustParam (buildImageURL b side n version ext) cb) = false) :
    tryCandidates oracle b side n version false pts cb (ext :: rest) lastTried =
      ((tryCandidates oracle b side n version false pts cb rest
          (addCacheBustParam (buildImageURL b side n version ext) cb)).1,
       buildImageURL b side n version ext ::
       addCacheBustParam (buildImageURL b side n version ext) cb ::
       (tryCandidates oracle b side n version false pts cb rest
          (addCacheBustParam (buildImageURL b side n version ext) cb)).2) := by
  conv_lhs => unfold tryCandidates
  dsimp only
  rw [if_neg (show ¬(false = true) by simp)]
  rw [if_neg (by simp [h1])]
  rw [if_neg (by simp [h2])]

theorem loadCardImage_webp_candidates (oracle : String → Bool) (b : String)
    (hb : b ≠ "") (n : Nat) (version : Option String) (cb : String) :
    loadCardImage oracle "front" n b none
      (deriveFormatsFromManifest
        (some { image_formats := some { front := some "webp" } })) version false "" cb =
      tryCandidates oracle b "front" n version false "" cb ["webp", "png"] "" := by
  unfold loadCardImage
  rw [if_neg hb]
  dsimp only
  rw [show newSet (List.filter (fun e => decide (e ≠ ""))
      ([] ++ getPreferredFormats "front" (deriveFormatsFromManifest
        (some { image_formats := some { front := some "webp" } })) ++ IMAGE_FORMATS)) =
      ["webp", "png"] from by decide]
  rfl

/-- C6: with a manifest declaring `formats.front = "webp"` and no cached
extension for this (base, side, number), the resolver's first attempted URL
for side `front` is `base/front{n}.webp` (version query parameter appended
exactly when a version token is known, as `buildImageURL` does); if that load
fails, the same URL is retried exactly once with an appended cache-bust token
before any other extension; and if both attempts fail the resolver falls
through to the `png` candidate, whose URL is the next one attempted. -/
theorem claim_C6_format_fallback (oracle : String → Bool) (b : String) (hb : b ≠ "")
    (n : Nat) (version : Option String) (cb : String) :
    (loadCardImage oracle "front" n b none
        (deriveFormatsFromManifest
          (some { image_formats := some { front := some "webp" } }))
        version false "" cb).2.head? =
      some (buildImageURL b "front" n version "webp") ∧
    (oracle (buildImageURL b "front" n version "webp") = false →
     oracle (addCacheBustParam (buildImageURL b "front" n version "webp") cb) = false →
      (loadCardImage oracle "front" n b none
          (deriveFormatsFromManifest
            (some { image_formats := some { front := some "webp" } }))
          version false "" cb).2 =
        buildImageURL b "front" n version "webp" ::
        addCacheBustParam (buildImageURL b "front" n version "webp") cb ::
        (tryCandidates oracle b "front" n version false "" cb ["png"]
          (addCacheBustParam (buildImageURL b "front" n version "webp") cb)).2 ∧
      (loadCardImage oracle "front" n b none
          (deriveFormatsFromManifest
            (some { image_formats := some { front := some "webp" } }))
          version false "" cb).2.get? 2 =
        some (buildImageURL b "front" n version "png")) := by
  rw [loadCardImage_webp_candidates oracle b hb n version cb]
  constructor
  · exact tryCandidates_trace_head oracle b "front" n version "" cb "webp" ["png"] ""
  · intro h1 h2
    rw [tryCandidates_cons_fail oracle b "front" n version "" cb "webp" ["png"] "" h1 h2]
    refine ⟨rfl, ?_⟩
    have hh := tryCandidates_trace_get0 oracle b "front" n version "" cb "png" []
      (addCacheBustParam (buildImageURL b "front" n version "webp") cb)
    dsimp only [List.get?]
    exact hh

/-- Witness for C6 at a concrete oracle and base path. -/
theorem claim_C6_witness :
    (loadCardImage (fun _ => false) "front" 5 "flashcards/ch1_cartes" none
        (deriveFormatsFromManifest
          (some { image_formats := some { front := some "webp" } }))
        none false "" "tok").2.head? =
      some (buildImageURL "flashcards/ch1_cartes" "front" 5 none "webp") :=
  (claim_C6_format_fallback (fun _ => false) "flashcards/ch1_cartes" (by decide)
    5 none "tok").1

/-! ### Shuffle draws: removal from the unvisited set and no redraw -/

theorem ShuffleInv_congr {t s : AppState} (h1 : t.shuffle = s.shuffle)
    (h2 : t.unvisited = s.unvisited) (h3 : t.shuffleQueue = s.shuffleQueue)
    (h4 : t.deck = s.deck) : ShuffleInv t ↔ ShuffleInv s := by
  unfold ShuffleInv
  rw [h1, h2, h3, h4]

theorem getLast?_not_mem_dropLast {l : List Nat} (hnd : l.Nodup) {c : Nat}
    (h : l.getLast? = some c) : ¬ c ∈ l.dropLast := by
  have hne : l ≠ [] := by
    intro hnil
    rw [hnil] at h
    cases h
  have hc : l.getLast hne = c := by
    have hg := List.getLast?_eq_getLast l hne
    rw [hg] at h
    cases h
    rfl
  have heq : l.dropLast ++ [l.getLast hne] = l := List.dropLast_append_getLast hne
  rw [← heq, List.nodup_append] at hnd
  obtain ⟨-, -, hdisj⟩ := hnd
  intro hmem
  exact hdisj hmem (by rw [hc]; exact List.mem_singleton_self c)

theorem getLast?_mem_of_eq {l : List Nat} {c : Nat} (h : l.getLast? = some c) : c ∈ l := by
  have hne : l ≠ [] := by
    intro hnil
    rw [hnil] at h
    cases h
  have hg := List.getLast?_eq_getLast l hne
  rw [hg] at h
  cases h
  exact List.getLast_mem hne

theorem shuffleArray_ne_nil (rand : List Nat) {l : List Nat} (h : l ≠ []) :
    shuffleArray rand l ≠ [] := by
  intro hnil
  have hlen := (shuffleArray_perm rand l).length_eq
  rw [hnil] at hlen
  exact h (List.eq_nil_of_length_eq_zero hlen.symm)

theorem ensureShuffleQueue_inv (cur : Option Nat) (rand : List Nat) (s : AppState)
    (h : ShuffleInv s) :
    ShuffleInv (ensureShuffleQueue cur rand s).1 ∧
    ((ensureShuffleQueue cur rand s).2 = false →
      (ensureShuffleQueue cur rand s).1.unvisited = s.unvisited ∧
      ∀ x ∈ (ensureShuffleQueue cur rand s).1.shuffleQueue, x ∈ s.unvisited) := by
  obtain ⟨h1, h2, h3, h4, h5, h6⟩ := h
  unfold ensureShuffleQueue
  rw [if_neg (by rw [h1]; simp)]
  by_cases hq : s.shuffleQueue.length = 0
  · rw [if_pos hq]
    by_cases hu : s.unvisited.length = 0
    · rw [if_pos hu]
      rcases cur with _ | c
      · dsimp only
        refine ⟨⟨h1, newSet_nodup _, shuffleArray_nodup rand (newSet_nodup _), ?_, ?_, h6⟩, ?_⟩
        · intro x hx
          rw [mem_shuffleArray] at hx
          exact hx
        · intro x hx
          rw [mem_newSet] at hx
          exact hx
        · intro hfalse
          cases hfalse
      · dsimp only
        by_cases hc : c = 0
        · rw [if_pos hc]
          refine ⟨⟨h1, newSet_nodup _, shuffleArray_nodup rand (newSet_nodup _), ?_, ?_, h6⟩, ?_⟩
          · intro x hx
            rw [mem_shuffleArray] at hx
            exact hx
          · intro x hx
            rw [mem_newSet] at hx
            exact hx
          · intro hfalse
            cases hfalse
        · rw [if_neg hc]
          refine ⟨⟨h1, jsDel_nodup (newSet_nodup _) c,
            shuffleArray_nodup rand (jsDel_nodup (newSet_nodup _) c), ?_, ?_, h6⟩, ?_⟩
          · intro x hx
            rw [mem_shuffleArray] at hx
            exact hx
          · intro x hx
            rw [mem_jsDel, mem_newSet] at hx
            exact hx.1
          · intro hfalse
            cases hfalse
    · rw [if_neg hu]
      dsimp only
      refine ⟨⟨h1, h2, shuffleArray_nodup rand h2, ?_, h5, h6⟩, ?_⟩
      · intro x hx
        rw [mem_shuffleArray] at hx
        exact hx
      · intro _
        refine ⟨rfl, ?_⟩
        intro x hx
        rw [mem_shuffleArray] at hx
        exact hx
  · rw [if_neg hq]
    exact ⟨⟨h1, h2, h3, h4, h5, h6⟩, fun _ => ⟨rfl, h4⟩⟩

theorem ensureShuffleQueue_noregen_queue_ne (cur : Option Nat) (rand : List Nat)
    (s : AppState) (hsh : s.shuffle = true)
    (hreg : (ensureShuffleQueue cur rand s).2 = false) :
    (ensureShuffleQueue cur rand s).1.shuffleQueue ≠ [] := by
  unfold ensureShuffleQueue at hreg ⊢
  rw [if_neg (by rw [hsh]; simp)] at hreg ⊢
  by_cases hq : s.shuffleQueue.length = 0
  · rw [if_pos hq] at hreg ⊢
    by_cases hu : s.unvisited.length = 0
    · rw [if_pos hu] at hreg
      cases hreg
    · rw [if_neg hu]
      dsimp only
      exact shuffleArray_ne_nil rand (fun hnil => hu (by rw [hnil]; rfl))
  · rw [if_neg hq]
    intro hnil
    rw [hnil] at hq
    exact hq rfl

theorem ensureShuffleQueue_avoid_current (c : Nat) (rand : List Nat) (s : AppState)
    (hc : c ≠ 0) (hu : ¬ c ∈ s.unvisited) (hq : ¬ c ∈ s.shuffleQueue) :
    ¬ c ∈ (ensureShuffleQueue (some c) rand s).1.unvisited ∧
    ¬ c ∈ (ensureShuffleQueue (some c) rand s).1.shuffleQueue := by
  unfold ensureShuffleQueue
  by_cases hsh : s.shuffle = false
  · rw [if_pos hsh]
    exact ⟨hu, hq⟩
  · rw [if_neg hsh]
    by_cases hql : s.shuffleQueue.length = 0
    · rw [if_pos hql]
      by_cases hul : s.unvisited.length = 0
      · rw [if_pos hul]
        dsimp only
        rw [if_neg hc]
        constructor
        · intro hmem
          rw [mem_jsDel] at hmem
          exact hmem.2 rfl
        · intro hmem
          rw [mem_shuffleArray, mem_jsDel] at hmem
          exact hmem.2 rfl
      · rw [if_neg hul]
        dsimp only
        exact ⟨hu, fun hmem => hu (mem_shuffleArray.mp hmem)⟩
    · rw [if_neg hql]
      exact ⟨hu, hq⟩

theorem pushHistoryBounded_svframe (c : Nat) (s : AppState) :
    (pushHistoryBounded c s).unvisited = s.unvisited ∧
    (pushHistoryBounded c s).shuffleQueue = s.shuffleQueue ∧
    (pushHistoryBounded c s).deck = s.deck ∧
    (pushHistoryBounded c s).shuffle = s.shuffle := by
  unfold pushHistoryBounded
  dsimp only
  split <;> exact ⟨rfl, rfl, rfl, rfl⟩

theorem drawTail (c : Nat) (rand2 : List Nat) (s2 : AppState)
    (hinv2 : ShuffleInv s2) (hc0 : c ≠ 0) (hq2 : ¬ c ∈ s2.shuffleQueue) :
    ShuffleInv (ensureShuffleQueue (some c) rand2 { pushHistoryBounded c s2 with unvisited := jsDel (pushHistoryBounded c s2).unvisited c }).1 ∧
    (¬ c ∈ (ensureShuffleQueue (some c) rand2 { pushHistoryBounded c s2 with unvisited := jsDel (pushHistoryBounded c s2).unvisited c }).1.unvisited ∧
     ¬ c ∈ (ensureShuffleQueue (some c) rand2 { pushHistoryBounded c s2 with unvisited := jsDel (pushHistoryBounded c s2).unvisited c }).1.shuffleQueue) ∧
    ((ensureShuffleQueue (some c) rand2 { pushHistoryBounded c s2 with unvisited := jsDel (pushHistoryBounded c s2).unvisited c }).2 = false →
      ∀ x, ¬ x ∈ s2.unvisited → ¬ x ∈ s2.shuffleQueue →
        ¬ x ∈ (ensureShuffleQueue (some c) rand2 { pushHistoryBounded c s2 with unvisited := jsDel (pushHistoryBounded c s2).unvisited c }).1.unvisited ∧
        ¬ x ∈ (ensureShuffleQueue (some c) rand2 { pushHistoryBounded c s2 with unvisited := jsDel (pushHistoryBounded c s2).unvisited c }).1.shuffleQueue) := by
  obtain ⟨pf1, pf2, pf3, pf4⟩ := pushHistoryBounded_svframe c s2
  obtain ⟨j1, j2, j3, j4, j5, j6⟩ := hinv2
  have hinv4 : ShuffleInv { pushHistoryBounded c s2 with unvisited := jsDel (pushHistoryBounded c s2).unvisited c } := by
    unfold ShuffleInv
    dsimp only
    refine ⟨?_, ?_, ?_, ?_, ?_, ?_⟩
    · rw [pf4]
      exact j1
    · exact jsDel_nodup (by rw [pf1]; exact j2) c
    · rw [pf2]
      exact j3
    · intro x hx
      rw [pf2] at hx
      rw [mem_jsDel, pf1]
      refine ⟨j4 x hx, ?_⟩
      intro hxc
      rw [hxc] at hx
      exact hq2 hx
    · intro x hx
      rw [mem_jsDel, pf1] at hx
      rw [pf3]
      exact j5 x hx.1
    · rw [pf3]
      exact j6
  have hu4 : ¬ c ∈ ({ pushHistoryBounded c s2 with unvisited := jsDel (pushHistoryBounded c s2).unvisited c } : AppState).unvisited := by
    dsimp only
    intro hmem
    rw [mem_jsDel] at hmem
    exact hmem.2 rfl
  have hq4 : ¬ c ∈ ({ pushHistoryBounded c s2 with unvisited := jsDel (pushHistoryBounded c s2).unvisited c } : AppState).shuffleQueue := by
    dsimp only
    rw [pf2]
    exact hq2
  obtain ⟨hfin1, hfin2⟩ := ensureShuffleQueue_avoid_current c rand2
    { pushHistoryBounded c s2 with unvisited := jsDel (pushHistoryBounded c s2).unvisited c }
    hc0 hu4 hq4
  refine ⟨(ensureShuffleQueue_inv (some c) rand2 _ hinv4).1, ⟨hfin1, hfin2⟩, ?_⟩
  intro hreg x hxu hxq
  obtain ⟨hnu2, hnq2⟩ := (ensureShuffleQueue_inv (some c) rand2
    { pushHistoryBounded c s2 with unvisited := jsDel (pushHistoryBounded c s2).unvisited c } hinv4).2 hreg
  have hxs4 : ¬ x ∈ ({ pushHistoryBounded c s2 with unvisited := jsDel (pushHistoryBounded c s2).unvisited c } : AppState).unvisited := by
    dsimp only
    intro hmem
    rw [mem_jsDel, pf1] at hmem
    exact hxu hmem.1
  constructor
  · rw [hnu2]
    exact hxs4
  · intro hmem
    exact hxs4 (hnq2 x hmem)

theorem nextCardAux_step (p : NavParams) (s : AppState) (h : ShuffleInv s) :
    ShuffleInv (nextCardAux p s).st ∧
    (∀ c, (nextCardAux p s).drawn = some c →
      c ≠ 0 ∧ ¬ c ∈ (nextCardAux p s).st.unvisited ∧
      ¬ c ∈ (nextCardAux p s).st.shuffleQueue) ∧
    ((nextCardAux p s).regen = false →
      (∀ c, (nextCardAux p s).drawn = some c → c ∈ s.unvisited) ∧
      (∀ c, ¬ c ∈ s.unvisited → ¬ c ∈ s.shuffleQueue → c ≠ 0 →
        ¬ c ∈ (nextCardAux p s).st.unvisited ∧
        ¬ c ∈ (nextCardAux p s).st.shuffleQueue)) := by
  unfold nextCardAux
  by_cases hd : s.deck.length = 0
  · rw [if_pos hd]
    refine ⟨h, ?_, ?_⟩
    · intro c hc
      cases hc
    · intro _
      refine ⟨?_, ?_⟩
      · intro c hc
        cases hc
      · intro c hu hq _
        exact ⟨hu, hq⟩
  · rw [if_neg hd]
    dsimp only
    have e1 : (if p.queued = false ∧ s.revisionMode = false then
        recordFastNavBurst p.now s else s).shuffle = s.shuffle := by
      split
      · exact (recordFastNavBurst_frame p.now s).2.1
      · rfl
    have e2 : (if p.queued = false ∧ s.revisionMode = false then
        recordFastNavBurst p.now s else s).unvisited = s.unvisited := by
      split
      · exact (recordFastNavBurst_frame p.now s).2.2.2.2.2.2.2.1
      · rfl
    have e3 : (if p.queued = false ∧ s.revisionMode = false then
        recordFastNavBurst p.now s else s).shuffleQueue = s.shuffleQueue := by
      split
      · exact (recordFastNavBurst_frame p.now s).2.2.2.2.2.2.2.2.1
      · rfl
    have e4 : (if p.queued = false ∧ s.revisionMode = false then
        recordFastNavBurst p.now s else s).deck = s.deck := by
      split
      · exact (recordFastNavBurst_frame p.now s).1
      · rfl
    generalize hS : (if p.queued = false ∧ s.revisionMode = false then
      recordFastNavBurst p.now s else s) = t at e1 e2 e3 e4 ⊢
    have hinvt : ShuffleInv t := (ShuffleInv_congr e1 e2 e3 e4).mpr h
    rw [← e2, ← e3]
    by_cases ht : t.isTransitioning = true
    · rw [if_pos ht]
      split
      · obtain ⟨q1, q2, -, -, -, q6, q7⟩ := enqueueNavAction_frame NavAct.next t
        dsimp only
        refine ⟨(ShuffleInv_congr q2 q6 q7 q1).mpr hinvt, ?_, ?_⟩
        · intro c hc
          cases hc
        · intro _
          refine ⟨?_, ?_⟩
          · intro c hc
            cases hc
          · intro c hu hq _
            rw [q6, q7]
            exact ⟨hu, hq⟩
      · dsimp only
        refine ⟨hinvt, ?_, ?_⟩
        · intro c hc
          cases hc
        · intro _
          refine ⟨?_, ?_⟩
          · intro c hc
            cases hc
          · intro c hu hq _
            exact ⟨hu, hq⟩
    · rw [if_neg ht]
      rw [if_pos hinvt.1]
      by_cases hrep : t.historyIndex < (t.history.length : Int) - 1
      · rw [if_pos hrep]
        dsimp only
        refine ⟨(ShuffleInv_congr rfl rfl rfl rfl).mpr hinvt, ?_, ?_⟩
        · intro c hc
          cases hc
        · intro _
          refine ⟨?_, ?_⟩
          · intro c hc
            cases hc
          · intro c hu hq _
            exact ⟨hu, hq⟩
      · rw [if_neg hrep]
        obtain ⟨hinv1, hnore1⟩ := ensureShuffleQueue_inv (getCurrentCard t) p.rand1 t hinvt
        obtain ⟨i1, i2, i3, i4, i5, i6⟩ := hinv1
        have fdeck : (ensureShuffleQueue (getCurrentCard t) p.rand1 t).1.deck = t.deck :=
          (ensureShuffleQueue_fst_frame _ _ _).2.2.1
        have ht0 : ¬ 0 ∈ t.deck := by
          rw [← fdeck]
          exact i6
        split
        · rename_i c hlast
          dsimp only
          have hcmemq : c ∈ (ensureShuffleQueue (getCurrentCard t) p.rand1 t).1.shuffleQueue :=
            getLast?_mem_of_eq hlast
          have hcmemu : c ∈ (ensureShuffleQueue (getCurrentCard t) p.rand1 t).1.unvisited :=
            i4 c hcmemq
          have hcdeck : c ∈ t.deck := by
            rw [← fdeck]
            exact i5 c hcmemu
          have hc0 : c ≠ 0 := fun h0 => ht0 (h0 ▸ hcdeck)
          have hcdrop : ¬ c ∈ (ensureShuffleQueue (getCurrentCard t) p.rand1 t).1.shuffleQueue.dropLast :=
            getLast?_not_mem_dropLast i3 hlast
          have hinv2 : ShuffleInv { (ensureShuffleQueue (getCurrentCard t) p.rand1 t).1 with
              shuffleQueue := (ensureShuffleQueue (getCurrentCard t) p.rand1 t).1.shuffleQueue.dropLast } := by
            unfold ShuffleInv
            dsimp only
            exact ⟨i1, i2, List.Nodup.sublist (List.dropLast_sublist _) i3,
              fun x hx => i4 x ((List.dropLast_sublist _).subset hx), i5, i6⟩
          have hq2 : ¬ c ∈ ({ (ensureShuffleQueue (getCurrentCard t) p.rand1 t).1 with
              shuffleQueue := (ensureShuffleQueue (getCurrentCard t) p.rand1 t).1.shuffleQueue.dropLast } : AppState).shuffleQueue := by
            dsimp only
            exact hcdrop
          obtain ⟨dA, dB, dC⟩ := drawTail c p.rand2
            { (ensureShuffleQueue (getCurrentCard t) p.rand1 t).1 with
              shuffleQueue := (ensureShuffleQueue (getCurrentCard t) p.rand1 t).1.shuffleQueue.dropLast }
            hinv2 hc0 hq2
          refine ⟨dA, ?_, ?_⟩
          · intro c2 hc2
            cases hc2
            exact ⟨hc0, dB.1, dB.2⟩
          · intro hreg
            rw [Bool.or_eq_false_iff] at hreg
            obtain ⟨hu1eq, hq1sub⟩ := hnore1 hreg.1
            have hcd := dC hreg.2
            constructor
            · intro c2 hc2
              cases hc2
              rw [← hu1eq]
              exact hcmemu
            · intro x hxu hxq hx0
              refine hcd x ?_ ?_
              · show ¬ x ∈ (ensureShuffleQueue (getCurrentCard t) p.rand1 t).1.unvisited
                rw [hu1eq]
                exact hxu
              · show ¬ x ∈ (ensureShuffleQueue (getCurrentCard t) p.rand1 t).1.shuffleQueue.dropLast
                intro hmem
                exact hxu (hq1sub x ((List.dropLast_sublist _).subset hmem))
        · rename_i hlast
          split
          · rename_i c hhead
            dsimp only
            have hq1nil : (ensureShuffleQueue (getCurrentCard t) p.rand1 t).1.shuffleQueue = [] :=
              List.getLast?_eq_none_iff.mp hlast
            have hcdeck : c ∈ t.deck := by
              rw [← fdeck]
              exact List.mem_of_mem_head? (by rw [hhead]; exact rfl)
            have hc0 : c ≠ 0 := fun h0 => ht0 (h0 ▸ hcdeck)
            have hinv2 : ShuffleInv (ensureShuffleQueue (getCurrentCard t) p.rand1 t).1 :=
              ⟨i1, i2, i3, i4, i5, i6⟩
            have hq2 : ¬ c ∈ (ensureShuffleQueue (getCurrentCard t) p.rand1 t).1.shuffleQueue := by
              rw [hq1nil]
              intro hmem
              cases hmem
            obtain ⟨dA, dB, dC⟩ := drawTail c p.rand2
              (ensureShuffleQueue (getCurrentCard t) p.rand1 t).1 hinv2 hc0 hq2
            refine ⟨dA, ?_, ?_⟩
            · intro c2 hc2
              cases hc2
              exact ⟨hc0, dB.1, dB.2⟩
            · intro hreg
              rw [Bool.or_eq_false_iff] at hreg
              exfalso
              exact ensureShuffleQueue_noregen_queue_ne (getCurrentCard t) p.rand1 t hinvt.1
                hreg.1 hq1nil
          · dsimp only
            refine ⟨⟨i1, i2, i3, i4, i5, i6⟩, ?_, ?_⟩
            · intro c hc
              cases hc
            · intro hreg
              obtain ⟨hu1eq, hq1sub⟩ := hnore1 hreg
              refine ⟨?_, ?_⟩
              · intro c hc
                cases hc
              · intro c hu hq _
                constructor
                · rw [hu1eq]
                  exact hu
                · intro hmem
                  exact hu (hq1sub c hmem)

theorem runAvoid (steps : List NavParams) :
    ∀ t : AppState, ShuffleInv t → ∀ c : Nat, ¬ c ∈ t.unvisited →
    ¬ c ∈ t.shuffleQueue → c ≠ 0 → runNoRegen t steps = true →
    ¬ c ∈ runDrawn t steps := by
  induction steps with
  | nil =>
    intro t _ c _ _ _ _ hmem
    cases hmem
  | cons p ps ih =>
    intro t hinv c hu hq hc0 hnr
    unfold runNoRegen at hnr
    dsimp only at hnr
    rw [Bool.and_eq_true] at hnr
    obtain ⟨hnr1, hnr2⟩ := hnr
    rw [Bool.not_eq_true'] at hnr1
    obtain ⟨hinv2, hdr, hnoreg⟩ := nextCardAux_step p t hinv
    obtain ⟨hsrc, havoid⟩ := hnoreg hnr1
    obtain ⟨hu2, hq2⟩ := havoid c hu hq hc0
    unfold runDrawn
    dsimp only
    rcases hdq : (nextCardAux p t).drawn with _ | c2
    · dsimp only
      rw [List.nil_append]
      exact ih (nextCardAux p t).st hinv2 c hu2 hq2 hc0 hnr2
    · dsimp only
      intro hmem
      rcases List.mem_append.mp hmem with hmem | hmem
      · have hceq : c = c2 := List.mem_singleton.mp hmem
        exact hu (hceq ▸ hsrc c2 hdq)
      · exact ih (nextCardAux p t).st hinv2 c hu2 hq2 hc0 hnr2 hmem

/-- C3: in shuffle mode, under the shuffle invariant, a forward advance that
draws card `c` removes `c` from the unvisited set in that same operation (`c`
is in neither the resulting unvisited set nor the pending shuffle queue), and
any run of subsequent forward advances in which no step regenerates the
unvisited set never draws `c` again. -/
theorem claim_C3_no_redraw_until_regen (p : NavParams) (s : AppState) (c : Nat)
    (steps : List NavParams) (h : ShuffleInv s)
    (hdrawn : (nextCardAux p s).drawn = some c) :
    ¬ c ∈ (nextCardAux p s).st.unvisited ∧
    ¬ c ∈ (nextCardAux p s).st.shuffleQueue ∧
    (runNoRegen (nextCardAux p s).st steps = true →
      ¬ c ∈ runDrawn (nextCardAux p s).st steps) := by
  obtain ⟨hinv2, hdr, -⟩ := nextCardAux_step p s h
  obtain ⟨hc0, hnu, hnq⟩ := hdr c hdrawn
  exact ⟨hnu, hnq, fun hnr => runAvoid steps (nextCardAux p s).st hinv2 c hnu hnq hc0 hnr⟩

/-- Witness for C3 at a concrete state: the advance draws card 4, which leaves
the unvisited set and the queue, and the following regeneration-free advance
does not draw it again. -/
theorem claim_C3_witness :
    ¬ 4 ∈ (nextCardAux ({} : NavParams) { deck := [1, 2, 3, 4], shuffle := true, history := [1], historyIndex := 0, unvisited := [2, 3, 4], shuffleQueue := [2, 3, 4] }).st.unvisited ∧
    ¬ 4 ∈ (nextCardAux ({} : NavParams) { deck := [1, 2, 3, 4], shuffle := true, history := [1], historyIndex := 0, unvisited := [2, 3, 4], shuffleQueue := [2, 3, 4] }).st.shuffleQueue ∧
    (runNoRegen (nextCardAux ({} : NavParams) { deck := [1, 2, 3, 4], shuffle := true, history := [1], historyIndex := 0, unvisited := [2, 3, 4], shuffleQueue := [2, 3, 4] }).st [({} : NavParams)] = true →
      ¬ 4 ∈ runDrawn (nextCardAux ({} : NavParams) { deck := [1, 2, 3, 4], shuffle := true, history := [1], historyIndex := 0, unvisited := [2, 3, 4], shuffleQueue := [2, 3, 4] }).st [({} : NavParams)]) :=
  claim_C3_no_redraw_until_regen ({} : NavParams)
    { deck := [1, 2, 3, 4], shuffle := true, history := [1], historyIndex := 0, unvisited := [2, 3, 4], shuffleQueue := [2, 3, 4] }
    4 [({} : NavParams)] (by decide) (by decide)

end Cartes
